import Mathlib

/-!
Verification development for the streamystats statistics layer.

The TypeScript sources are shallowly embedded in Lean: the database is a
record of lists (one per table), every Drizzle query becomes a pure
function over those lists, JavaScript numbers are modelled by `Int`/`Nat`
(`Math.round(a / b)` becomes an exact integer formula, bridged to the
rational `Int.floor` form by a lemma), and timestamps are seconds since
the Unix epoch with calendar fields derived by the standard civil-date
algorithm.  SQL result orders that the source leaves unspecified (ties
under `ORDER BY`, `GROUP BY` output order) are made deterministic by a
stable insertion sort with a canonical key tiebreak.
-/

set_option maxHeartbeats 1600000
set_option synthInstance.maxSize 1024

namespace Streamy

/-! ## Boolean linear orders used to make SQL orders deterministic -/

/-- Lexicographic comparison of char lists, ascending by code point. -/
def charListLe : List Char → List Char → Bool
  | [], _ => true
  | _ :: _, [] => false
  | a :: as, b :: bs =>
    if a < b then true else if b < a then false else charListLe as bs

/-- Code-point order on strings. -/
def strLe (a b : String) : Bool := charListLe a.data b.data

def natLeB (a b : Nat) : Bool := decide (a ≤ b)

def intLeB (a b : Int) : Bool := decide (a ≤ b)

/-- Lift an order to `Option`, with `none` first. -/
def optLe (le : α → α → Bool) : Option α → Option α → Bool
  | none, _ => true
  | some _, none => false
  | some a, some b => le a b

/-- Lexicographic product order. -/
def pairLe [DecidableEq α] (le1 : α → α → Bool) (le2 : β → β → Bool) :
    α × β → α × β → Bool
  | (a1, b1), (a2, b2) => if a1 = a2 then le2 b1 b2 else le1 a1 a2

/-- Totality, transitivity and antisymmetry of a boolean relation. -/
structure IsLinOrd (le : α → α → Bool) : Prop where
  total : ∀ a b, le a b = true ∨ le b a = true
  trans : ∀ a b c, le a b = true → le b c = true → le a c = true
  antisymm : ∀ a b, le a b = true → le b a = true → a = b

/-! ## Stable insertion sort -/

/-- Insert before the first element that `x` may precede; later ties keep
their original relative order, matching the stable JavaScript sort. -/
def insertLe (le : α → α → Bool) (x : α) : List α → List α
  | [] => [x]
  | y :: ys => if le x y then x :: y :: ys else y :: insertLe le x ys

/-- Stable insertion sort (deterministic stand-in for SQL / JS sorting). -/
def sortBy (le : α → α → Bool) : List α → List α
  | [] => []
  | x :: xs => insertLe le x (sortBy le xs)

/-! ## Grouping (SQL GROUP BY semantics over row lists) -/

/-- Group a row list by a key; one group per distinct key, carrying every
row with that key. -/
def groupsBy [DecidableEq κ] (key : α → κ) (l : List α) : List (κ × List α) :=
  ((l.map key).dedup).map (fun k => (k, l.filter (fun a => decide (key a = k))))

/-- Sum of an integer measure over a row list (SQL SUM, with NULL rows
contributing 0, matching the `Number(x ?? 0)` coercions in the source). -/
def sumBy (f : α → Int) (l : List α) : Int := (l.map f).sum

/-! ## JavaScript rounding -/

/-- Exact integer form of `Math.round(a / b)` (round half toward positive
infinity); Lean division on `Int` floors for positive divisors, and both
sides are 0 when `b = 0`. -/
def jsRoundDiv (a b : Int) : Int := (2 * a + b) / (2 * b)

/-! ## Civil-date arithmetic (seconds since the Unix epoch) -/

/-- Days from the epoch of a civil date, by the standard era-based
algorithm (valid for the post-1970 dates stored by the application). -/
def daysFromCivil (y m d : Nat) : Nat :=
  let yy := if m ≤ 2 then y - 1 else y
  let era := yy / 400
  let yoe := yy % 400
  let mp := (m + 9) % 12
  let doy := (153 * mp + 2) / 5 + d - 1
  let doe := yoe * 365 + yoe / 4 - yoe / 100 + doy
  era * 146097 + doe - 719468

/-- Civil date (year, month, day) of a day count since the epoch. -/
def civilFromDays (z : Nat) : Nat × Nat × Nat :=
  let zz := z + 719468
  let era := zz / 146097
  let doe := zz % 146097
  let yoe := (doe - doe / 1460 + doe / 36524 - doe / 146096) / 365
  let y := yoe + era * 400
  let doy := doe - (365 * yoe + yoe / 4 - yoe / 100)
  let mp := (5 * doy + 2) / 153
  let d := doy - (153 * mp + 2) / 5 + 1
  let m := if mp < 10 then mp + 3 else mp - 9
  (if m ≤ 2 then y + 1 else y, m, d)

def epochDay (t : Nat) : Nat := t / 86400

def hourOfDay (t : Nat) : Nat := t % 86400 / 3600

/-- PostgreSQL EXTRACT(DOW): 0 = Sunday; the epoch day 0 was a Thursday. -/
def pgDow (t : Nat) : Nat := (epochDay t + 4) % 7

def monthOfTime (t : Nat) : Nat := (civilFromDays (epochDay t)).2.1

/-- Mirrors `getYearDateRange`: first and last second of the UTC year. -/
def getYearDateRange (year : Nat) : Nat × Nat :=
  (86400 * daysFromCivil year 1 1, 86400 * daysFromCivil (year + 1) 1 1 - 1)

/-! ## Data model (packages/database schema, fields the queries touch) -/

structure Session where
  id : String
  serverId : Int
  userId : Option String
  userName : String
  userServerId : String
  itemId : Option String
  itemName : Option String
  seriesId : Option String
  seriesName : Option String
  seasonId : Option String
  startTime : Option Nat
  endTime : Option Nat
  playDuration : Option Int
  runtimeTicks : Option Int
  positionTicks : Option Int
  percentComplete : Int
  completed : Bool
  isPaused : Bool
  isMuted : Bool
  isActive : Bool
  isInferred : Bool
  isTranscoded : Bool
deriving DecidableEq

structure Item where
  id : String
  serverId : Int
  libraryId : String
  name : String
  type : String
  genres : Option (List String)
  seriesId : Option String
  seriesName : Option String
  seasonId : Option String
  primaryImageTag : Option String
  productionYear : Option Int
  runtimeTicks : Option Int
deriving DecidableEq

structure Person where
  id : String
  serverId : Int
  name : String
  primaryImageTag : Option String
deriving DecidableEq

structure ItemPerson where
  itemId : String
  personId : String
  serverId : Int
  type : String
deriving DecidableEq

structure DbUser where
  id : String
  serverId : Int
  name : String
  inferWatchtimeOnMarkWatched : Option Bool
deriving DecidableEq

structure Server where
  id : Int
  name : String
  url : String
  internalUrl : Option String
  apiKey : String
  excludedUserIds : List String
  excludedLibraryIds : List String
deriving DecidableEq

structure DB where
  servers : List Server
  users : List DbUser
  items : List Item
  people : List Person
  itemPeople : List ItemPerson
  sessions : List Session
deriving DecidableEq

structure WrappedParams where
  serverId : Int
  userId : String
  year : Nat
deriving DecidableEq

/-! ## Exclusions -/

/-- Modelled from the spec: the module `./exclusions` with
`getStatisticsExclusions` is not among the provided sources (only its
callers are).  The spec defines the exclusion list as the per-server
configured set of users/libraries omitted from statistics, and the server
settings actions store `excludedUserIds` / `excludedLibraryIds` on the
server row.  The two returned conditions therefore hold exactly of the
sessions whose user is not on the excluded-user list and of the items
whose library is not on the excluded-library list. -/
def getStatisticsExclusions (db : DB) (serverId : Int) :
    (Session → Bool) × (Item → Bool) :=
  match db.servers.find? (fun sv => decide (sv.id = serverId)) with
  | none => (fun _ => true, fun _ => true)
  | some sv =>
    (fun s =>
      match s.userId with
      | none => true
      | some u => decide (u ∉ sv.excludedUserIds),
     fun it => decide (it.libraryId ∉ sv.excludedLibraryIds))

/-! ## Joined rows (sessions INNER JOIN items plus WHERE conditions) -/

/-- A surviving row of `sessions INNER JOIN items ON sessions.itemId =
items.id`, with the non-null start time and item id extracted. -/
structure SIRow where
  s : Session
  item : Item
  t : Nat
  itemKey : String
deriving DecidableEq

/-- All rows of the join of `db.sessions` with `db.items` whose session
side passes `sessOk` and whose item side passes `itemOk`; rows with a NULL
`startTime` or NULL `itemId` are dropped (every query in the source
either filters `isNotNull(sessions.itemId)` and compares `startTime`
against a range — NULL fails SQL comparisons — or joins on the item). -/
def joinedRows (db : DB) (sessOk : Session → Nat → Bool) (itemOk : Item → Bool) :
    List SIRow :=
  db.sessions.flatMap (fun s =>
    match s.startTime, s.itemId with
    | some t, some iid =>
      if sessOk s t then
        (db.items.filter (fun it => decide (it.id = iid) && itemOk it)).map
          (fun it => { s := s, item := it, t := t, itemKey := iid })
      else []
    | _, _ => [])

/-- Session-side WHERE conditions shared by the per-user Wrapped queries:
server, user, year range and the user-exclusion filter. -/
def wrappedSessOk (db : DB) (p : WrappedParams) (s : Session) (t : Nat) : Bool :=
  decide (s.serverId = p.serverId) && decide (s.userId = some p.userId) &&
    decide ((getYearDateRange p.year).1 ≤ t) &&
    decide (t ≤ (getYearDateRange p.year).2) &&
    (getStatisticsExclusions db p.serverId).1 s

/-- The fully filtered `sessions INNER JOIN items` row set used by
`getWrappedOverview`, `getWrappedActivityPatterns`,
`getWrappedTypeBreakdown` and `getWrappedRewatchStats`. -/
def wrappedRows (db : DB) (p : WrappedParams) : List SIRow :=
  joinedRows db (wrappedSessOk db p) (getStatisticsExclusions db p.serverId).2

/-- Play duration of a row; SQL SUM ignores NULL, matching the
`Number(x ?? 0)` coercion applied to every sum in the source. -/
def durOf (r : SIRow) : Int := r.s.playDuration.getD 0

/-! ## getWrappedActivityPatterns -/

def MONTH_NAMES : List String :=
  ["January", "February", "March", "April", "May", "June", "July",
   "August", "September", "October", "November", "December"]

def WEEKDAY_NAMES : List String :=
  ["Monday", "Tuesday", "Wednesday", "Thursday", "Friday", "Saturday", "Sunday"]

/-- A day of the calendar heatmap; the date is a day count since the
epoch (the SQL `DATE(start_time)` value). -/
structure DayActivity where
  date : Nat
  watchTimeSeconds : Int
  playCount : Nat
deriving DecidableEq

structure HourlyPattern where
  hour : Nat
  watchTimeSeconds : Int
  playCount : Nat
deriving DecidableEq

structure WeekdayPattern where
  day : String
  dayIndex : Nat
  watchTimeSeconds : Int
  playCount : Nat
deriving DecidableEq

structure MonthlyTotal where
  month : Nat
  monthName : String
  watchTimeSeconds : Int
  playCount : Nat
deriving DecidableEq

structure WrappedActivityPatterns where
  calendarHeatmap : List DayActivity
  hourlyPatterns : List HourlyPattern
  weekdayPatterns : List WeekdayPattern
  monthlyTotals : List MonthlyTotal
  peakHour : Nat
  peakWeekday : String
  peakMonth : Nat
  longestStreak : Nat
deriving DecidableEq

/-- GROUP BY with an ascending ORDER BY on the (numeric) group key. -/
def groupsByKeyAsc (key : α → Nat) (l : List α) : List (Nat × List α) :=
  sortBy (fun g1 g2 => natLeB g1.1 g2.1) (groupsBy key l)

/-- Mirrors JS `list.reduce((max, h) => f h > f max ? h : max)`: the first
element of maximal measure; `dflt` is returned on the empty list (the
source never reduces an empty list: the three pattern lists always have
24, 7 and 12 entries). -/
def reduceMaxBy (f : α → Int) (dflt : α) : List α → α
  | [] => dflt
  | x :: xs => xs.foldl (fun mx h => if f h > f mx then h else mx) x

/-- The body of the streak for-loop: `prev` is the previous date, `cur`
the running streak ending at `prev`, `best` the maximum seen so far. -/
def streakAux : List Nat → Nat → Nat → Nat → Nat
  | [], _, _, best => best
  | d :: rest, prev, cur, best =>
    let cur2 := if (d : Int) - (prev : Int) = 1 then cur + 1 else 1
    streakAux rest d cur2 (max best cur2)

/-- Mirrors the longest-streak loop over the sorted date list. -/
def longestStreakOf : List Nat → Nat
  | [] => 0
  | d :: rest => streakAux rest d 1 (max 0 1)

def getWrappedActivityPatterns (db : DB) (p : WrappedParams) :
    WrappedActivityPatterns :=
  let rows := wrappedRows db p
  let calendarHeatmap : List DayActivity :=
    (groupsByKeyAsc (fun r => epochDay r.t) rows).map
      (fun g => { date := g.1, watchTimeSeconds := sumBy durOf g.2,
                  playCount := g.2.length })
  let hourlyStats : List HourlyPattern :=
    (groupsByKeyAsc (fun r => hourOfDay r.t) rows).map
      (fun g => { hour := g.1, watchTimeSeconds := sumBy durOf g.2,
                  playCount := g.2.length })
  let hourlyPatterns : List HourlyPattern :=
    (List.range 24).map (fun h =>
      match hourlyStats.find? (fun st => decide (st.hour = h)) with
      | some st => { hour := h, watchTimeSeconds := st.watchTimeSeconds,
                     playCount := st.playCount }
      | none => { hour := h, watchTimeSeconds := 0, playCount := 0 })
  let weekdayStats : List (Nat × Int × Nat) :=
    (groupsByKeyAsc (fun r => pgDow r.t) rows).map
      (fun g => (g.1, sumBy durOf g.2, g.2.length))
  let weekdayPatterns : List WeekdayPattern :=
    WEEKDAY_NAMES.enum.map (fun e =>
      let dbDowIndex := if e.1 = 6 then 0 else e.1 + 1
      match weekdayStats.find? (fun st => decide (st.1 = dbDowIndex)) with
      | some st => { day := e.2, dayIndex := e.1, watchTimeSeconds := st.2.1,
                     playCount := st.2.2 }
      | none => { day := e.2, dayIndex := e.1, watchTimeSeconds := 0,
                  playCount := 0 })
  let monthlyStats : List (Nat × Int × Nat) :=
    (groupsByKeyAsc (fun r => monthOfTime r.t) rows).map
      (fun g => (g.1, sumBy durOf g.2, g.2.length))
  let monthlyTotals : List MonthlyTotal :=
    MONTH_NAMES.enum.map (fun e =>
      let month := e.1 + 1
      match monthlyStats.find? (fun st => decide (st.1 = month)) with
      | some st => { month := month, monthName := e.2,
                     watchTimeSeconds := st.2.1, playCount := st.2.2 }
      | none => { month := month, monthName := e.2, watchTimeSeconds := 0,
                  playCount := 0 })
  let peakHourStat : HourlyPattern :=
    reduceMaxBy (fun h => h.watchTimeSeconds)
      { hour := 0, watchTimeSeconds := 0, playCount := 0 } hourlyPatterns
  let peakWeekdayStat : WeekdayPattern :=
    reduceMaxBy (fun w => w.watchTimeSeconds)
      { day := "", dayIndex := 0, watchTimeSeconds := 0, playCount := 0 }
      weekdayPatterns
  let peakMonthStat : MonthlyTotal :=
    reduceMaxBy (fun m => m.watchTimeSeconds)
      { month := 0, monthName := "", watchTimeSeconds := 0, playCount := 0 }
      monthlyTotals
  let sortedDates := sortBy natLeB (calendarHeatmap.map (fun d => d.date))
  { calendarHeatmap := calendarHeatmap
    hourlyPatterns := hourlyPatterns
    weekdayPatterns := weekdayPatterns
    monthlyTotals := monthlyTotals
    peakHour := peakHourStat.hour
    peakWeekday := peakWeekdayStat.day
    peakMonth := peakMonthStat.month
    longestStreak := longestStreakOf sortedDates }

/-! ## getWrappedTypeBreakdown -/

structure TypeBucket where
  watchTimeSeconds : Int
  playCount : Nat
  percentage : Int
deriving DecidableEq

structure TypeTotal where
  watchTimeSeconds : Int
  playCount : Nat
deriving DecidableEq

structure TypeBreakdown where
  movie : TypeBucket
  episode : TypeBucket
  total : TypeTotal
deriving DecidableEq

def getWrappedTypeBreakdown (db : DB) (p : WrappedParams) : TypeBreakdown :=
  let rows := wrappedRows db p
  let typeStats : List (String × Int × Nat) :=
    (groupsBy (fun r => r.item.type) rows).map
      (fun g => (g.1, sumBy durOf g.2, g.2.length))
  let movieStats := typeStats.find? (fun st => decide (st.1 = "Movie"))
  let episodeStats := typeStats.find? (fun st => decide (st.1 = "Episode"))
  let movieTime := match movieStats with | some st => st.2.1 | none => 0
  let episodeTime := match episodeStats with | some st => st.2.1 | none => 0
  let movieCount := match movieStats with | some st => st.2.2 | none => 0
  let episodeCount := match episodeStats with | some st => st.2.2 | none => 0
  let totalTime := movieTime + episodeTime
  { movie :=
      { watchTimeSeconds := movieTime, playCount := movieCount,
        percentage := if 0 < totalTime then jsRoundDiv (100 * movieTime) totalTime else 0 }
    episode :=
      { watchTimeSeconds := episodeTime, playCount := episodeCount,
        percentage := if 0 < totalTime then jsRoundDiv (100 * episodeTime) totalTime else 0 }
    total := { watchTimeSeconds := totalTime, playCount := movieCount + episodeCount } }

/-! ## getWrappedRewatchStats -/

/-- The GROUP BY key of the rewatch query: item id, name, type, image
tag, series name and production year. -/
abbrev RKey : Type :=
  String × String × String × Option String × Option String × Option Int

def optStrLe : Option String → Option String → Bool := optLe strLe

def optIntLe : Option Int → Option Int → Bool := optLe intLeB

def rkeyLe : RKey → RKey → Bool :=
  pairLe strLe (pairLe strLe (pairLe strLe (pairLe optStrLe
    (pairLe optStrLe optIntLe))))

def rkeyOf (r : SIRow) : RKey :=
  (r.itemKey, r.item.name, r.item.type, r.item.primaryImageTag,
   r.item.seriesName, r.item.productionYear)

structure RewatchItem where
  itemId : String
  itemName : String
  itemType : String
  playCount : Nat
  totalWatchTimeSeconds : Int
  primaryImageTag : Option String
  seriesName : Option String
  productionYear : Option Int
deriving DecidableEq

structure MostRewatched where
  itemId : String
  itemName : String
  itemType : String
  rewatchCount : Nat
  primaryImageTag : Option String
  seriesName : Option String
  productionYear : Option Int
deriving DecidableEq

structure RewatchStats where
  mostRewatchedItem : Option MostRewatched
  totalRewatches : Nat
  rewatchPercentage : Int
  topRewatchedItems : List RewatchItem
deriving DecidableEq

def getWrappedRewatchStats (db : DB) (p : WrappedParams) : RewatchStats :=
  let rows := wrappedRows db p
  let groups := (groupsBy rkeyOf rows).filter (fun g => decide (1 < g.2.length))
  let ordered :=
    sortBy (fun g1 g2 =>
      decide (g2.2.length < g1.2.length) ||
        (decide (g1.2.length = g2.2.length) && rkeyLe g1.1 g2.1)) groups
  let itemPlayCounts : List RewatchItem :=
    ordered.map (fun g =>
      { itemId := g.1.1, itemName := g.1.2.1, itemType := g.1.2.2.1,
        playCount := g.2.length, totalWatchTimeSeconds := sumBy durOf g.2,
        primaryImageTag := g.1.2.2.2.1, seriesName := g.1.2.2.2.2.1,
        productionYear := g.1.2.2.2.2.2 })
  let topRewatchedItems := itemPlayCounts.take 5
  let totalRewatches : Nat :=
    (itemPlayCounts.map (fun it2 => it2.playCount - 1)).sum
  let totalPlays := rows.length
  let rewatchPercentage : Int :=
    if 0 < totalPlays then jsRoundDiv (100 * (totalRewatches : Int)) totalPlays
    else 0
  let mostRewatchedItem : Option MostRewatched :=
    itemPlayCounts.head?.map (fun it2 =>
      { itemId := it2.itemId, itemName := it2.itemName,
        itemType := it2.itemType, rewatchCount := it2.playCount - 1,
        primaryImageTag := it2.primaryImageTag, seriesName := it2.seriesName,
        productionYear := it2.productionYear })
  { mostRewatchedItem := mostRewatchedItem, totalRewatches := totalRewatches,
    rewatchPercentage := rewatchPercentage,
    topRewatchedItems := topRewatchedItems }

/-! ## getWrappedGenreStats -/

/-- The `unnest(items.genres)` expansion: one row per (genre, joined row)
pair; a NULL or empty genre array contributes no rows. -/
def genreRowsOf (rows : List SIRow) : List (String × SIRow) :=
  rows.flatMap (fun r => (r.item.genres.getD []).map (fun g => (g, r)))

structure GenreStat where
  genre : String
  watchTimeSeconds : Int
  playCount : Nat
  percentageOfTotal : Int
deriving DecidableEq

structure WrappedGenres where
  topGenres : List GenreStat
  totalGenresExplored : Nat
deriving DecidableEq

def getWrappedGenreStats (db : DB) (p : WrappedParams) : WrappedGenres :=
  let rows := joinedRows db (wrappedSessOk db p)
    (fun it => (getStatisticsExclusions db p.serverId).2 it && it.genres.isSome)
  let grouped : List (String × Int × Nat) :=
    (groupsBy Prod.fst (genreRowsOf rows)).map
      (fun g => (g.1, sumBy (fun pr => durOf pr.2) g.2, g.2.length))
  let genreStats :=
    sortBy (fun a b =>
      decide (b.2.1 < a.2.1) || (decide (a.2.1 = b.2.1) && strLe a.1 b.1)) grouped
  let totalWatchTime := (genreStats.map (fun g => g.2.1)).sum
  let topGenres : List GenreStat :=
    (genreStats.take 10).map (fun g =>
      { genre := g.1, watchTimeSeconds := g.2.1, playCount := g.2.2,
        percentageOfTotal :=
          if 0 < totalWatchTime then jsRoundDiv (100 * g.2.1) totalWatchTime
          else 0 })
  { topGenres := topGenres, totalGenresExplored := genreStats.length }

/-! ## getWrappedGenrePercentiles -/

structure GenrePercentile where
  genre : String
  userWatchTimeSeconds : Int
  serverAverageSeconds : Int
  percentile : Int
  isTopGenreForUser : Bool
deriving DecidableEq

/-- Session-side conditions of the requester query of
`getWrappedGenrePercentiles`; unlike every other per-user query it does
NOT include the user-exclusion condition. -/
def percentileUserSessOk (p : WrappedParams) (s : Session) (t : Nat) : Bool :=
  decide (s.serverId = p.serverId) && decide (s.userId = some p.userId) &&
    decide ((getYearDateRange p.year).1 ≤ t) &&
    decide (t ≤ (getYearDateRange p.year).2)

/-- Session-side conditions of the cohort query of
`getWrappedGenrePercentiles`: every user of the server, with the
user-exclusion condition applied. -/
def percentileServerSessOk (db : DB) (p : WrappedParams) (s : Session) (t : Nat) :
    Bool :=
  decide (s.serverId = p.serverId) && decide ((getYearDateRange p.year).1 ≤ t) &&
    decide (t ≤ (getYearDateRange p.year).2) && s.userId.isSome &&
    (getStatisticsExclusions db p.serverId).1 s

def getWrappedGenrePercentiles (db : DB) (p : WrappedParams) :
    List GenrePercentile :=
  let libOk := (getStatisticsExclusions db p.serverId).2
  let userRows := joinedRows db (percentileUserSessOk p)
    (fun it => libOk it && it.genres.isSome)
  let userGenreStats : List (String × Int) :=
    sortBy (fun a b => decide (b.2 < a.2) || (decide (a.2 = b.2) && strLe a.1 b.1))
      ((groupsBy Prod.fst (genreRowsOf userRows)).map
        (fun g => (g.1, sumBy (fun pr => durOf pr.2) g.2)))
  if userGenreStats.isEmpty then []
  else
    let serverRows := joinedRows db (percentileServerSessOk db p)
      (fun it => libOk it && it.genres.isSome)
    let allUsersGenreStats : List ((String × String) × Int) :=
      (groupsBy (fun pr => (pr.2.s.userId.getD (""), pr.1)) (genreRowsOf serverRows)).map
        (fun g => (g.1, sumBy (fun pr => durOf pr.2) g.2))
    let userTopGenre := userGenreStats.head?.map Prod.fst
    (userGenreStats.take 5).map (fun ug =>
      let genre := ug.1
      let userTime := ug.2
      let genreWatchTimes :=
        sortBy intLeB
          ((allUsersGenreStats.filter (fun st => decide (st.1.2 = genre))).map
            Prod.snd)
      let usersBelow := genreWatchTimes.countP (fun w => decide (w < userTime))
      let percentile : Int :=
        if 0 < genreWatchTimes.length then
          jsRoundDiv (100 * (usersBelow : Int)) genreWatchTimes.length
        else 0
      let serverAverageSeconds : Int :=
        if 0 < genreWatchTimes.length then
          jsRoundDiv genreWatchTimes.sum genreWatchTimes.length
        else 0
      { genre := genre, userWatchTimeSeconds := userTime,
        serverAverageSeconds := serverAverageSeconds, percentile := percentile,
        isTopGenreForUser := decide (userTopGenre = some genre) })

/-- The joined genre rows of the requester query of
`getWrappedGenrePercentiles`. -/
def percentileUserGenreRows (db : DB) (p : WrappedParams) :
    List (String × SIRow) :=
  genreRowsOf (joinedRows db (percentileUserSessOk p)
    (fun it => (getStatisticsExclusions db p.serverId).2 it && it.genres.isSome))

/-- The requester's per-genre totals of `getWrappedGenrePercentiles`,
ordered by watch time descending (genre name ascending on ties). -/
def userGenreStatsOf (db : DB) (p : WrappedParams) : List (String × Int) :=
  sortBy (fun a b => decide (b.2 < a.2) || (decide (a.2 = b.2) && strLe a.1 b.1))
    ((groupsBy Prod.fst (percentileUserGenreRows db p)).map
      (fun g => (g.1, sumBy (fun pr => durOf pr.2) g.2)))

/-- The cohort per-(user, genre) totals of `getWrappedGenrePercentiles`. -/
def allUsersGenreStatsOf (db : DB) (p : WrappedParams) :
    List ((String × String) × Int) :=
  (groupsBy (fun pr => (pr.2.s.userId.getD (""), pr.1))
      (genreRowsOf (joinedRows db (percentileServerSessOk db p)
        (fun it => (getStatisticsExclusions db p.serverId).2 it &&
          it.genres.isSome)))).map
    (fun g => (g.1, sumBy (fun pr => durOf pr.2) g.2))

/-- The cohort watch-time totals of one genre (unsorted). -/
def genreCohortTotals (db : DB) (p : WrappedParams) (genre : String) :
    List Int :=
  ((allUsersGenreStatsOf db p).filter (fun st => decide (st.1.2 = genre))).map
    Prod.snd

/-- The cohort watch-time totals of one genre, sorted ascending. -/
def genreCohortTimes (db : DB) (p : WrappedParams) (genre : String) :
    List Int :=
  sortBy intLeB (genreCohortTotals db p genre)

/-- One output entry of `getWrappedGenrePercentiles`, as built from a
(genre, requester watch time) pair of the requester's stats. -/
def percEntry (db : DB) (p : WrappedParams) (ug : String × Int) :
    GenrePercentile :=
  { genre := ug.1, userWatchTimeSeconds := ug.2,
    serverAverageSeconds :=
      if 0 < (genreCohortTimes db p ug.1).length then
        jsRoundDiv (genreCohortTimes db p ug.1).sum
          (genreCohortTimes db p ug.1).length
      else 0,
    percentile :=
      if 0 < (genreCohortTimes db p ug.1).length then
        jsRoundDiv (100 * ((genreCohortTimes db p ug.1).countP
            (fun w => decide (w < ug.2)) : Int))
          (genreCohortTimes db p ug.1).length
      else 0,
    isTopGenreForUser :=
      decide ((userGenreStatsOf db p).head?.map Prod.fst = some ug.1) }

/-! ## getWrappedOverview -/

structure WatchInfo where
  itemId : String
  itemName : String
  itemType : String
  timestamp : Nat
  primaryImageTag : Option String
  seriesName : Option String
  productionYear : Option Int
  genres : Option (List String)
deriving DecidableEq

structure WrappedOverview where
  totalPlays : Nat
  totalWatchTimeSeconds : Int
  totalHoursWatched : Int
  uniqueItemsWatched : Nat
  totalDaysWithActivity : Nat
  firstWatch : Option WatchInfo
  lastWatch : Option WatchInfo
deriving DecidableEq

/-- Builds the first/last-watch record of the overview, including the
fallback that fetches the genres of the parent series when an episode has
a NULL or empty genre list; the record is NULL when the row has a falsy
(empty) item id, mirroring the `firstWatchResult?.itemId ? ... : null`
truthiness test. -/
def overviewWatchOf (db : DB) (r : SIRow) : Option WatchInfo :=
  if r.itemKey = "" then none
  else
    let genres0 := r.item.genres
    let genres :=
      match r.item.seriesId with
      | some sid =>
        if genres0 = none ∨ genres0 = some [] then
          match db.items.find? (fun it => decide (it.id = sid)) with
          | some seriesItem => seriesItem.genres
          | none => none
        else genres0
      | none => genres0
    some
      { itemId := r.itemKey, itemName := r.item.name, itemType := r.item.type,
        timestamp := r.t, primaryImageTag := r.item.primaryImageTag,
        seriesName := r.item.seriesName, productionYear := r.item.productionYear,
        genres := genres }

def getWrappedOverview (db : DB) (p : WrappedParams) : WrappedOverview :=
  let rows := wrappedRows db p
  let totalWatchTimeSeconds := sumBy durOf rows
  let firstWatchRow := (sortBy (fun a b => natLeB a.t b.t) rows).head?
  let lastWatchRow := (sortBy (fun a b => natLeB b.t a.t) rows).head?
  { totalPlays := rows.length
    totalWatchTimeSeconds := totalWatchTimeSeconds
    totalHoursWatched := jsRoundDiv totalWatchTimeSeconds 3600
    uniqueItemsWatched := ((rows.map (fun r => r.itemKey)).dedup).length
    totalDaysWithActivity := ((rows.map (fun r => epochDay r.t)).dedup).length
    firstWatch := firstWatchRow.bind (overviewWatchOf db)
    lastWatch := lastWatchRow.bind (overviewWatchOf db) }

/-! ## getWrappedTopItems -/

/-- A surviving row of the item-stats query of `getWrappedTopItems`,
which reads only the sessions table (no item join, hence no
library-exclusion condition at this stage). -/
structure SRow where
  s : Session
  t : Nat
  itemKey : String
deriving DecidableEq

def topItemsSessionRows (db : DB) (p : WrappedParams) : List SRow :=
  db.sessions.filterMap (fun s =>
    match s.startTime, s.itemId with
    | some t, some iid =>
      if wrappedSessOk db p s t then some { s := s, t := t, itemKey := iid }
      else none
    | _, _ => none)

structure SessStat where
  itemId : String
  totalPlayCount : Nat
  totalPlayDuration : Int
deriving DecidableEq

structure ItemWithStats where
  item : Item
  totalPlayCount : Nat
  totalPlayDuration : Int
deriving DecidableEq

structure WrappedTopItems where
  movies : List ItemWithStats
  series : List ItemWithStats
deriving DecidableEq

def getWrappedTopItems (db : DB) (p : WrappedParams) (limit : Nat := 10) :
    WrappedTopItems :=
  let srows := topItemsSessionRows db p
  let rawSessionStats : List SessStat :=
    (sortBy (fun g1 g2 =>
        decide (g2.2.1 < g1.2.1) || (decide (g1.2.1 = g2.2.1) && strLe g1.1 g2.1))
      ((groupsBy (fun r => r.itemKey) srows).map
        (fun g => (g.1, sumBy (fun r => r.s.playDuration.getD 0) g.2,
                   g.2.length)))).map
      (fun g => { itemId := g.1, totalPlayCount := g.2.2,
                  totalPlayDuration := g.2.1 })
  let sessionStats := rawSessionStats.filter (fun st => decide (st.itemId ≠ ""))
  let itemIds : List String := sessionStats.map (fun st => st.itemId)
  let libOk := (getStatisticsExclusions db p.serverId).2
  let itemsData :=
    db.items.filter (fun it => decide (it.id ∈ itemIds) && libOk it)
  let lookupIt := fun (k : String) =>
    (itemsData.reverse).find? (fun it => decide (it.id = k))
  let itemsWithStats : List ItemWithStats :=
    sessionStats.filterMap (fun st =>
      (lookupIt st.itemId).map (fun it =>
        { item := it, totalPlayCount := st.totalPlayCount,
          totalPlayDuration := st.totalPlayDuration }))
  let movies := itemsWithStats.filter (fun iw => decide (iw.item.type = "Movie"))
  let episodeRows := itemsWithStats.filter (fun iw =>
    decide (iw.item.type = "Episode") && iw.item.seriesId.isSome)
  let seriesIds : List String :=
    (episodeRows.filterMap (fun iw => iw.item.seriesId)).dedup
  let seriesItems := db.items.filter (fun it =>
    decide (it.id ∈ seriesIds) && decide (it.type = "Series") &&
      decide (it.serverId = p.serverId))
  let series : List ItemWithStats :=
    seriesItems.map (fun sit =>
      let eps := episodeRows.filter (fun iw =>
        decide (iw.item.seriesId = some sit.id))
      { item := sit, totalPlayCount := (eps.map (fun iw => iw.totalPlayCount)).sum,
        totalPlayDuration := sumBy (fun iw => iw.totalPlayDuration) eps })
  { movies :=
      (sortBy (fun a b => intLeB b.totalPlayDuration a.totalPlayDuration)
        movies).take limit
    series :=
      (sortBy (fun a b => intLeB b.totalPlayDuration a.totalPlayDuration)
        series).take limit }

/-- The grouped, ordered, non-empty-id session stats of
`getWrappedTopItems` (its first stage, before the item lookup). -/
def topItemsSessionStats (srows : List SRow) : List SessStat :=
  ((sortBy (fun g1 g2 =>
      decide (g2.2.1 < g1.2.1) || (decide (g1.2.1 = g2.2.1) && strLe g1.1 g2.1))
    ((groupsBy (fun r => r.itemKey) srows).map
      (fun g => (g.1, sumBy (fun r => r.s.playDuration.getD 0) g.2,
                 g.2.length)))).map
    (fun g => ({ itemId := g.1, totalPlayCount := g.2.2,
                 totalPlayDuration := g.2.1 } : SessStat))).filter
    (fun st => decide (st.itemId ≠ ""))

/-- The item lookup of `getWrappedTopItems` (its second stage): stats
whose item is found among the non-excluded items, merged with that
item. -/
def topItemsWithStats (db : DB) (p : WrappedParams)
    (sessionStats : List SessStat) : List ItemWithStats :=
  let itemIds : List String := sessionStats.map (fun st => st.itemId)
  let itemsData := db.items.filter (fun it =>
    decide (it.id ∈ itemIds) && (getStatisticsExclusions db p.serverId).2 it)
  sessionStats.filterMap (fun st =>
    ((itemsData.reverse).find? (fun it => decide (it.id = st.itemId))).map
      (fun it => { item := it, totalPlayCount := st.totalPlayCount,
                   totalPlayDuration := st.totalPlayDuration }))

/-- The movie/series split, series aggregation and final ordering of
`getWrappedTopItems` (its last stage). -/
def topItemsRest (db : DB) (p : WrappedParams)
    (itemsWithStats : List ItemWithStats) (limit : Nat) : WrappedTopItems :=
  let movies := itemsWithStats.filter (fun iw => decide (iw.item.type = "Movie"))
  let episodeRows := itemsWithStats.filter (fun iw =>
    decide (iw.item.type = "Episode") && iw.item.seriesId.isSome)
  let seriesIds : List String :=
    (episodeRows.filterMap (fun iw => iw.item.seriesId)).dedup
  let seriesItems := db.items.filter (fun it =>
    decide (it.id ∈ seriesIds) && decide (it.type = "Series") &&
      decide (it.serverId = p.serverId))
  let series : List ItemWithStats :=
    seriesItems.map (fun sit =>
      let eps := episodeRows.filter (fun iw =>
        decide (iw.item.seriesId = some sit.id))
      { item := sit, totalPlayCount := (eps.map (fun iw => iw.totalPlayCount)).sum,
        totalPlayDuration := sumBy (fun iw => iw.totalPlayDuration) eps })
  { movies :=
      (sortBy (fun a b => intLeB b.totalPlayDuration a.totalPlayDuration)
        movies).take limit
    series :=
      (sortBy (fun a b => intLeB b.totalPlayDuration a.totalPlayDuration)
        series).take limit }

/-! ## getWrappedPeopleStats -/

structure PersonStats where
  id : String
  name : String
  primaryImageTag : Option String
  type : String
  totalWatchTime : Int
  totalPlayCount : Nat
  itemCount : Nat
deriving DecidableEq

abbrev PKey : Type := String × String × Option String × Int

def pkeyLe : PKey → PKey → Bool :=
  pairLe strLe (pairLe strLe (pairLe optStrLe intLeB))

/-- Joins row list with `itemPeople` (`ON onKey r = itemPeople.itemId AND
itemPeople.type = personType`) and `people` (`ON personId AND serverId`). -/
def peopleJoinRows (db : DB) (rows : List SIRow) (onKey : SIRow → Option String)
    (personType : String) : List (SIRow × ItemPerson × Person) :=
  rows.flatMap (fun r =>
    db.itemPeople.flatMap (fun ip =>
      if decide (onKey r = some ip.itemId) && decide (ip.type = personType) then
        (db.people.filter (fun pe =>
          decide (ip.personId = pe.id) && decide (ip.serverId = pe.serverId))).map
          (fun pe => (r, ip, pe))
      else []))

/-- GROUP BY person, ORDER BY watch time DESC, LIMIT, and projection into
`PersonStats`; `distinctOf` is the argument of COUNT(DISTINCT _). -/
def aggregatePeople (triples : List (SIRow × ItemPerson × Person))
    (personType : String) (distinctOf : SIRow → Option String) (limit : Nat) :
    List PersonStats :=
  let groups : List (PKey × Int × Nat × Nat) :=
    (groupsBy (fun tr => ((tr.2.2.id, tr.2.2.name, tr.2.2.primaryImageTag,
        tr.2.2.serverId) : PKey)) triples).map
      (fun g => (g.1, sumBy (fun tr => durOf tr.1) g.2, g.2.length,
        ((g.2.filterMap (fun tr => distinctOf tr.1)).dedup).length))
  let ordered :=
    (sortBy (fun a b =>
      decide (b.2.1 < a.2.1) || (decide (a.2.1 = b.2.1) && pkeyLe a.1 b.1))
      groups).take limit
  ordered.map (fun g =>
    { id := g.1.1, name := g.1.2.1, primaryImageTag := g.1.2.2.1,
      type := personType, totalWatchTime := g.2.1, totalPlayCount := g.2.2.1,
      itemCount := g.2.2.2 })

/-- Replace the first element satisfying `q` (the JS `find` plus in-place
mutation used when merging series stats into movie stats). -/
def updateFirst (q : α → Bool) (f : α → α) : List α → List α
  | [] => []
  | x :: xs => if q x then f x :: xs else x :: updateFirst q f xs

def getTopPeopleByType (db : DB) (p : WrappedParams) (limit : Nat)
    (personType : String) : List PersonStats :=
  let libOk := (getStatisticsExclusions db p.serverId).2
  let movieBase := joinedRows db (wrappedSessOk db p)
    (fun it => libOk it && decide (it.type = "Movie"))
  let movieStats := aggregatePeople
    (peopleJoinRows db movieBase (fun r => some r.item.id) personType)
    personType (fun r => some r.item.id) limit
  let seriesBase := joinedRows db (wrappedSessOk db p)
    (fun it => libOk it && decide (it.type = "Episode") && it.seriesId.isSome)
  let seriesStats := aggregatePeople
    (peopleJoinRows db seriesBase (fun r => r.item.seriesId) personType)
    personType (fun r => r.item.seriesId) limit
  let merged := seriesStats.foldl (fun results stat =>
    if results.any (fun r2 => decide (r2.id = stat.id)) then
      updateFirst (fun r2 => decide (r2.id = stat.id)) (fun r2 =>
        { r2 with totalWatchTime := r2.totalWatchTime + stat.totalWatchTime,
                  totalPlayCount := r2.totalPlayCount + stat.totalPlayCount,
                  itemCount := r2.itemCount + stat.itemCount }) results
    else results ++ [stat]) movieStats
  (sortBy (fun a b => intLeB b.totalWatchTime a.totalWatchTime) merged).take limit

structure WrappedPeopleStats where
  topActors : List PersonStats
  topDirectors : List PersonStats
deriving DecidableEq

def getWrappedPeopleStats (db : DB) (p : WrappedParams) (limit : Nat := 10) :
    WrappedPeopleStats :=
  let actor : String := "Actor"
  let director : String := "Director"
  { topActors := getTopPeopleByType db p limit actor
    topDirectors := getTopPeopleByType db p limit director }

/-! ## server-url helpers (nextjs-app and job-server copies) -/

/-- The `{ url, internalUrl }` argument shape of `getInternalUrl`; an
absent and a NULL internal url are both `none`. -/
structure ServerUrlInfo where
  url : String
  internalUrl : Option String
deriving DecidableEq

namespace NextjsApp

/-- Mirrors `apps/nextjs-app/lib/server-url.ts`: the JS expression
`server.internalUrl || server.url` falls back on NULL, undefined and the
empty string (all falsy). -/
def getInternalUrl (server : ServerUrlInfo) : String :=
  match server.internalUrl with
  | some u => if u = "" then server.url else u
  | none => server.url

def getExternalUrl (server : ServerUrlInfo) : String := server.url

end NextjsApp

namespace JobServer

/-- Mirrors `apps/job-server/src/utils/server-url.ts`, a second copy of
the same JS expression `server.internalUrl || server.url`. -/
def getInternalUrl (server : ServerUrlInfo) : String :=
  match server.internalUrl with
  | some u => if u = "" then server.url else u
  | none => server.url

end JobServer

/-! ## mark-watched (apps/nextjs-app/lib/db/mark-watched.ts) -/

structure MarkWatchedResult where
  success : Bool
  message : String
  isPlayed : Option Bool
deriving DecidableEq

/-- The cookie session returned by `getSession`. -/
structure AuthSession where
  id : String
  name : String
  serverId : Int
deriving DecidableEq

/-- Outcome of the `fetch` against the media server: 2xx, a non-ok
status, or a thrown error (network failure / timeout) carrying the
message of the error object. -/
inductive FetchOutcome where
  | ok : FetchOutcome
  | notOk : Nat → FetchOutcome
  | throws : String → FetchOutcome
deriving DecidableEq

/-- Mirrors `createInferredSessionForItem`: looks the item up, bails out
when it is missing or its `runtimeTicks` is falsy (NULL or 0), and
otherwise inserts the synthesized session (`onConflictDoNothing` on the
primary key).  `now` is the current time in epoch seconds; the
`toISOString()` fragment of the generated id is modelled by `toString`. -/
def createInferredSessionForItem (db : DB) (serverId : Int)
    (userId userName itemId : String) (now : Nat) : DB :=
  match db.items.find? (fun it => decide (it.id = itemId)) with
  | none => db
  | some item =>
    match item.runtimeTicks with
    | none => db
    | some ticks =>
      if ticks = 0 then db
      else
        let sessionId := "inferred:mark-watched:" ++ toString serverId ++ ":" ++
          userId ++ ":" ++ itemId ++ ":" ++ toString now
        let playDurationSeconds := ticks / 10000000
        let ns : Session :=
          { id := sessionId, serverId := serverId, userId := some userId,
            userName := userName, userServerId := userId,
            itemId := some itemId, itemName := some item.name,
            seriesId := item.seriesId, seriesName := item.seriesName,
            seasonId := item.seasonId, startTime := some now,
            endTime := some now, playDuration := some playDurationSeconds,
            runtimeTicks := item.runtimeTicks,
            positionTicks := item.runtimeTicks, percentComplete := 100,
            completed := true, isPaused := false, isMuted := false,
            isActive := false, isInferred := true, isTranscoded := false }
        if db.sessions.any (fun s => decide (s.id = sessionId)) then db
        else { db with sessions := db.sessions ++ [ns] }

/-- Mirrors `markItemWatched`.  The ambient effects are explicit inputs:
the cookie session, the auth token, the outcome of the media-server
request and the current time.  Returns the result together with the
database after the call. -/
def markItemWatched (db : DB) (auth : Option AuthSession)
    (token : Option String) (fetchOutcome : FetchOutcome) (now : Nat)
    (serverId : Int) (itemId : String) (watched : Bool)
    (inferWatchtime : Option Bool) : MarkWatchedResult × DB :=
  match auth with
  | none => ({ success := false, message := "Not authenticated",
               isPlayed := none }, db)
  | some session =>
    if session.serverId ≠ serverId then
      ({ success := false, message := "Server mismatch", isPlayed := none }, db)
    else
      match db.servers.find? (fun sv => decide (sv.id = serverId)) with
      | none => ({ success := false, message := "Server not found",
                   isPlayed := none }, db)
      | some _ =>
        match token with
        | none => ({ success := false, message := "No authentication token",
                     isPlayed := none }, db)
        | some _ =>
          match fetchOutcome with
          | .throws msg =>
            ({ success := false, message := msg, isPlayed := none }, db)
          | .notOk status =>
            ({ success := false,
               message := "Jellyfin returned " ++ toString status,
               isPlayed := none }, db)
          | .ok =>
            let db2 :=
              if watched && inferWatchtime.getD false then
                createInferredSessionForItem db serverId session.id
                  session.name itemId now
              else db
            ({ success := true,
               message := if watched then ("Marked as watched")
                          else ("Marked as unwatched"),
               isPlayed := some watched }, db2)

/-- Mirrors `deleteInferredSessionForItem`: deletes the sessions matching
server, user, item and `isInferred = true`, returning how many rows were
deleted together with the resulting database. -/
def deleteInferredSessionForItem (db : DB) (serverId : Int)
    (userId itemId : String) : Nat × DB :=
  let matchesPred := fun (s : Session) =>
    decide (s.serverId = serverId) && decide (s.userId = some userId) &&
      decide (s.itemId = some itemId) && s.isInferred
  ((db.sessions.filter matchesPred).length,
   { db with sessions := db.sessions.filter (fun s => !(matchesPred s)) })

/-! ## Specification-side definitions used by the claim statements -/

/-- Whether the item carrying a given item id survives the library
exclusion (vacuously true when no item carries the id). -/
def itemKeptKey (db : DB) (serverId : Int) (k : String) : Bool :=
  match db.items.find? (fun it => decide (it.id = k)) with
  | none => true
  | some it => (getStatisticsExclusions db serverId).2 it

/-- The requesting user is not on the server's excluded-user list (the
proviso under which the missing user-exclusion condition of the
percentile query's per-user half makes no difference). -/
def requesterNotExcluded (db : DB) (p : WrappedParams) : Bool :=
  match db.servers.find? (fun sv => decide (sv.id = p.serverId)) with
  | none => true
  | some sv => decide (p.userId ∉ sv.excludedUserIds)

/-- A session survives the exclusion lists of the given server: its user
is not excluded and, when its item exists, that item is not in an
excluded library. -/
def keptSession (db : DB) (serverId : Int) (s : Session) : Bool :=
  (getStatisticsExclusions db serverId).1 s &&
    (match s.itemId with
     | none => true
     | some iid =>
       match db.items.find? (fun it => decide (it.id = iid)) with
       | none => true
       | some it => (getStatisticsExclusions db serverId).2 it)

/-- The database with every session of an excluded user and every session
of an excluded-library item removed. -/
def filterExcluded (db : DB) (serverId : Int) : DB :=
  { db with sessions := db.sessions.filter (keptSession db serverId) }

/-- A calendar day (counted from the epoch) on which the user has at
least one qualifying session. -/
def dayHasSession (db : DB) (p : WrappedParams) (d : Nat) : Prop :=
  ∃ r ∈ wrappedRows db p, epochDay r.t = d

/-- A run of `n` consecutive active days starting at `d`. -/
def streakRun (active : Nat → Prop) (d n : Nat) : Prop :=
  ∀ k < n, active (d + k)

/-- Weekday names in the PostgreSQL EXTRACT(DOW) convention, 0 = Sunday. -/
def SUNDAY_FIRST_WEEKDAYS : List String :=
  ["Sunday", "Monday", "Tuesday", "Wednesday", "Thursday", "Friday", "Saturday"]

/-- The expected weekday bucket: Monday-first index `i`, aggregating the
qualifying rows whose PostgreSQL day-of-week equals `k`. -/
def weekdayBucketSpec (db : DB) (p : WrappedParams) (i k : Nat)
    (name : String) : WeekdayPattern :=
  { day := name, dayIndex := i,
    watchTimeSeconds := sumBy durOf ((wrappedRows db p).filter
      (fun r => decide (pgDow r.t = k))),
    playCount := ((wrappedRows db p).filter
      (fun r => decide (pgDow r.t = k))).length }

/-- The expected month bucket: month number `m`, aggregating the
qualifying rows whose calendar month equals `m`. -/
def monthBucketSpec (db : DB) (p : WrappedParams) (m : Nat)
    (name : String) : MonthlyTotal :=
  { month := m, monthName := name,
    watchTimeSeconds := sumBy durOf ((wrappedRows db p).filter
      (fun r => decide (monthOfTime r.t = m))),
    playCount := ((wrappedRows db p).filter
      (fun r => decide (monthOfTime r.t = m))).length }

/-! ## Concrete database used by counterexamples and witnesses -/

/-- Noon UTC of 2024-06-01, in epoch seconds. -/
def exTime : Nat := 86400 * daysFromCivil 2024 6 1 + 43200

/-- A server whose exclusion list contains the user u1. -/
def exServer : Server :=
  { id := 1, name := "srv", url := "http://media.example", internalUrl := none,
    apiKey := "k", excludedUserIds := ["u1"], excludedLibraryIds := [] }

def exItem : Item :=
  { id := "A", serverId := 1, libraryId := "L", name := "Film",
    type := "Movie", genres := some ["Drama"], seriesId := none,
    seriesName := none, seasonId := none, primaryImageTag := none,
    productionYear := some 2000, runtimeTicks := some 12000000000 }

/-- A five-minute 2024 session of the excluded user u1 on item A. -/
def exSession : Session :=
  { id := "s1", serverId := 1, userId := some ("u1"), userName := "User One",
    userServerId := "u1", itemId := some ("A"), itemName := some ("Film"),
    seriesId := none, seriesName := none, seasonId := none,
    startTime := some exTime, endTime := some (exTime + 300),
    playDuration := some 300, runtimeTicks := some 12000000000,
    positionTicks := none, percentComplete := 100, completed := true,
    isPaused := false, isMuted := false, isActive := false,
    isInferred := false, isTranscoded := false }

def exDb : DB :=
  { servers := [exServer], users := [], items := [exItem], people := [],
    itemPeople := [], sessions := [exSession] }

def exParams : WrappedParams := { serverId := 1, userId := "u1", year := 2024 }

def exAuth : AuthSession := { id := "u1", name := "User One", serverId := 1 }

/-- The ordered group list of the rewatch query (HAVING COUNT > 1, ORDER
BY COUNT DESC), named so the claim statements can refer to the stages of
`getWrappedRewatchStats`; equality with the inlined pipeline is by
definitional unfolding. -/
def rewatchOrdered (db : DB) (p : WrappedParams) : List (RKey × List SIRow) :=
  sortBy (fun g1 g2 =>
      decide (g2.2.length < g1.2.length) ||
        (decide (g1.2.length = g2.2.length) && rkeyLe g1.1 g2.1))
    ((groupsBy rkeyOf (wrappedRows db p)).filter (fun g => decide (1 < g.2.length)))

/-- The record projection of a rewatch group. -/
def rewatchRecOf (g : RKey × List SIRow) : RewatchItem :=
  { itemId := g.1.1, itemName := g.1.2.1, itemType := g.1.2.2.1,
    playCount := g.2.length, totalWatchTimeSeconds := sumBy durOf g.2,
    primaryImageTag := g.1.2.2.2.1, seriesName := g.1.2.2.2.2.1,
    productionYear := g.1.2.2.2.2.2 }

/-- The key reconstructed from a rewatch record. -/
def rkeyOfRec (it : RewatchItem) : RKey :=
  (it.itemId, it.itemName, it.itemType, it.primaryImageTag, it.seriesName,
   it.productionYear)

/-- Number of qualifying joined rows of the wrapped year carrying a
given rewatch group key. -/
def rkeyCount (db : DB) (p : WrappedParams) (k : RKey) : Nat :=
  (wrappedRows db p).countP (fun r => decide (rkeyOf r = k))

/-! # Lemmas: insertion sort -/

theorem insertLe_perm (le : α → α → Bool) (x : α) (l : List α) :
    (insertLe le x l).Perm (x :: l) := by
  induction l with
  | nil => simp [insertLe]
  | cons y ys ih =>
    simp only [insertLe]
    by_cases h : le x y
    · simp [h]
    · simp only [h, if_false]
      exact (ih.cons y).trans (List.Perm.swap x y ys)

theorem sortBy_perm (le : α → α → Bool) (l : List α) : (sortBy le l).Perm l := by
  induction l with
  | nil => simp [sortBy]
  | cons x xs ih => exact (insertLe_perm le x (sortBy le xs)).trans (ih.cons x)

theorem mem_sortBy {le : α → α → Bool} {l : List α} {a : α} :
    a ∈ sortBy le l ↔ a ∈ l := (sortBy_perm le l).mem_iff

theorem insertLe_pairwise {le : α → α → Bool}
    (htot : ∀ a b, le a b = true ∨ le b a = true)
    (htrans : ∀ a b c, le a b = true → le b c = true → le a c = true)
    {x : α} {l : List α} (h : l.Pairwise (fun a b => le a b = true)) :
    (insertLe le x l).Pairwise (fun a b => le a b = true) := by
  induction l with
  | nil => simp [insertLe]
  | cons y ys ih =>
    rcases List.pairwise_cons.mp h with ⟨hy, hys⟩
    simp only [insertLe]
    by_cases hxy : le x y = true
    · simp only [hxy, if_true]
      refine List.pairwise_cons.mpr ⟨?_, h⟩
      intro b hb
      rcases List.mem_cons.mp hb with rfl | hb2
      · exact hxy
      · exact htrans x y b hxy (hy b hb2)
    · simp only [hxy, if_false]
      refine List.pairwise_cons.mpr ⟨?_, ih hys⟩
      intro b hb
      rcases List.mem_cons.mp ((insertLe_perm le x ys).mem_iff.mp hb) with hbx | hb2
      · rw [hbx]
        rcases htot x y with h1 | h1
        · exact absurd h1 hxy
        · exact h1
      · exact hy b hb2

theorem sortBy_pairwise {le : α → α → Bool}
    (htot : ∀ a b, le a b = true ∨ le b a = true)
    (htrans : ∀ a b c, le a b = true → le b c = true → le a c = true)
    (l : List α) : (sortBy le l).Pairwise (fun a b => le a b = true) := by
  induction l with
  | nil => simp [sortBy]
  | cons x xs ih => exact insertLe_pairwise htot htrans ih

theorem sortBy_of_pairwise {le : α → α → Bool} {l : List α}
    (h : l.Pairwise (fun a b => le a b = true)) : sortBy le l = l := by
  induction l with
  | nil => rfl
  | cons x xs ih =>
    rcases List.pairwise_cons.mp h with ⟨hx, hxs⟩
    rw [sortBy, ih hxs]
    cases xs with
    | nil => rfl
    | cons y ys => simp [insertLe, hx y (List.mem_cons_self y ys)]

/-- Two sorted permutations of each other are equal, provided the order
is antisymmetric on the elements involved. -/
theorem sorted_perm_unique {le : α → α → Bool} :
    ∀ {l₁ l₂ : List α}, l₁.Perm l₂ →
    l₁.Pairwise (fun a b => le a b = true) →
    l₂.Pairwise (fun a b => le a b = true) →
    (∀ a ∈ l₁, ∀ b ∈ l₁, le a b = true → le b a = true → a = b) →
    l₁ = l₂
  | [], l₂, hp, _, _, _ => (hp.symm.eq_nil).symm ▸ rfl
  | a :: t₁, [], hp, _, _, _ => absurd hp.eq_nil (by simp)
  | a :: t₁, b :: t₂, hp, h₁, h₂, hanti => by
    rcases List.pairwise_cons.mp h₁ with ⟨ha, ht₁⟩
    rcases List.pairwise_cons.mp h₂ with ⟨hb, ht₂⟩
    have hab : a = b := by
      by_cases heq : a = b
      · exact heq
      · have hainl2 : a ∈ b :: t₂ := hp.mem_iff.mp (List.mem_cons_self a t₁)
        have hbinl1 : b ∈ a :: t₁ := hp.mem_iff.mpr (List.mem_cons_self b t₂)
        have hba : le b a = true := by
          rcases List.mem_cons.mp hainl2 with rfl | hat2
          · exact absurd rfl heq
          · exact hb a hat2
        have hab2 : le a b = true := by
          rcases List.mem_cons.mp hbinl1 with rfl | hbt1
          · exact absurd rfl (fun hh => heq hh.symm)
          · exact ha b hbt1
        exact hanti a (List.mem_cons_self a t₁) b hbinl1 hab2 hba
    subst hab
    have hpt : t₁.Perm t₂ := hp.cons_inv
    have : t₁ = t₂ :=
      sorted_perm_unique hpt ht₁ ht₂
        (fun x hx y hy hxy hyx =>
          hanti x (List.mem_cons_of_mem a hx) y (List.mem_cons_of_mem a hy)
            hxy hyx)
    rw [this]

/-- Sorting commutes with filtering when the order separates the list
elements. -/
theorem sortBy_filter_comm {le : α → α → Bool}
    (htot : ∀ a b, le a b = true ∨ le b a = true)
    (htrans : ∀ a b c, le a b = true → le b c = true → le a c = true)
    (p : α → Bool) (l : List α)
    (hanti : ∀ a ∈ l, ∀ b ∈ l, le a b = true → le b a = true → a = b) :
    sortBy le (l.filter p) = (sortBy le l).filter p := by
  refine sorted_perm_unique ?_ (sortBy_pairwise htot htrans _) ?_ ?_
  · exact (sortBy_perm le (l.filter p)).trans
      ((sortBy_perm le l).filter p).symm
  · exact (sortBy_pairwise htot htrans l).filter p
  · intro a hax b hbx
    have hal : a ∈ l := List.mem_of_mem_filter (mem_sortBy.mp hax)
    have hbl : b ∈ l := List.mem_of_mem_filter (mem_sortBy.mp hbx)
    exact hanti a hal b hbl

/-! # Lemmas: dedup, filter, filterMap, flatMap -/

theorem dedup_filter [DecidableEq α] (p : α → Bool) :
    ∀ l : List α, (l.filter p).dedup = l.dedup.filter p := by
  intro l
  induction l with
  | nil => rfl
  | cons a l ih =>
    by_cases hp : p a = true
    · rw [List.filter_cons_of_pos hp]
      by_cases ha : a ∈ l
      · rw [List.dedup_cons_of_mem (List.mem_filter.mpr ⟨ha, hp⟩),
          List.dedup_cons_of_mem ha, ih]
      · rw [List.dedup_cons_of_not_mem (fun hc => ha (List.mem_of_mem_filter hc)),
          List.dedup_cons_of_not_mem ha, List.filter_cons_of_pos hp, ih]
    · rw [List.filter_cons_of_neg hp]
      by_cases ha : a ∈ l
      · rw [List.dedup_cons_of_mem ha, ih]
      · rw [List.dedup_cons_of_not_mem ha, List.filter_cons_of_neg hp, ih]

theorem filter_of_filter_imp {p q : α → Bool} (l : List α)
    (h : ∀ a ∈ l, q a = true → p a = true) :
    (l.filter p).filter q = l.filter q := by
  induction l with
  | nil => rfl
  | cons a l ih =>
    have ih2 := ih (fun a ha => h a (List.mem_cons_of_mem _ ha))
    by_cases hq : q a = true
    · rw [List.filter_cons_of_pos (h a (List.mem_cons_self a l) hq),
        List.filter_cons_of_pos hq, List.filter_cons_of_pos hq, ih2]
    · by_cases hp : p a = true
      · rw [List.filter_cons_of_pos hp, List.filter_cons_of_neg hq,
          List.filter_cons_of_neg hq, ih2]
      · rw [List.filter_cons_of_neg hp, List.filter_cons_of_neg hq, ih2]

theorem filterMap_filter_eq {f : α → Option β} {p : α → Bool} (l : List α)
    (h : ∀ a ∈ l, (f a).isSome = true → p a = true) :
    (l.filter p).filterMap f = l.filterMap f := by
  induction l with
  | nil => rfl
  | cons a l ih =>
    have ih2 := ih (fun a ha => h a (List.mem_cons_of_mem _ ha))
    by_cases hp : p a = true
    · rw [List.filter_cons_of_pos hp, List.filterMap_cons, List.filterMap_cons]
      cases f a <;> simp [ih2]
    · rw [List.filter_cons_of_neg hp, List.filterMap_cons]
      cases hf : f a with
      | none => simp [ih2]
      | some b =>
        exact absurd (h a (List.mem_cons_self a l) (by simp [hf])) hp

theorem filterMap_comm_filter {f : α → Option β} {p : α → Bool} {q : β → Bool}
    (l : List α) (h : ∀ a ∈ l, ∀ b, f a = some b → p a = q b) :
    (l.filter p).filterMap f = (l.filterMap f).filter q := by
  induction l with
  | nil => rfl
  | cons a l ih =>
    have ih2 := ih (fun a ha => h a (List.mem_cons_of_mem _ ha))
    have ha := h a (List.mem_cons_self a l)
    by_cases hp : p a = true
    · rw [List.filter_cons_of_pos hp, List.filterMap_cons, List.filterMap_cons]
      cases hf : f a with
      | none => simp [ih2]
      | some b =>
        have hq : q b = true := (ha b hf) ▸ hp
        simp [List.filter_cons_of_pos hq, ih2]
    · rw [List.filter_cons_of_neg hp, List.filterMap_cons]
      cases hf : f a with
      | none => simp [ih2]
      | some b =>
        have hq : ¬q b = true := by
          have := ha b hf
          rw [← this]
          exact hp
        rw [ih2, List.filter_cons_of_neg hq]

theorem flatMap_filter_eq {f : α → List β} {p : α → Bool} (l : List α)
    (h : ∀ a ∈ l, f a ≠ [] → p a = true) :
    (l.filter p).flatMap f = l.flatMap f := by
  induction l with
  | nil => rfl
  | cons a l ih =>
    have ih2 := ih (fun a ha => h a (List.mem_cons_of_mem _ ha))
    by_cases hp : p a = true
    · rw [List.filter_cons_of_pos hp, List.flatMap_cons, List.flatMap_cons, ih2]
    · have hfa : f a = [] := by
        by_contra hne
        exact hp (h a (List.mem_cons_self a l) hne)
      rw [List.filter_cons_of_neg hp, List.flatMap_cons, hfa, ih2,
        List.nil_append]

/-! # Lemmas: groupsBy -/

theorem groupsBy_filter_key [DecidableEq κ] (key : α → κ) (pk : κ → Bool)
    (l : List α) :
    groupsBy key (l.filter (fun a => pk (key a))) =
      (groupsBy key l).filter (fun g => pk g.1) := by
  unfold groupsBy
  have hmap : (l.filter (fun a => pk (key a))).map key = (l.map key).filter pk :=
    (List.filter_map key l).symm
  rw [hmap, dedup_filter]
  have hinner : ∀ k ∈ (l.map key).dedup.filter pk,
      ((k, (l.filter (fun a => pk (key a))).filter (fun a => decide (key a = k))) :
        κ × List α) =
      (k, l.filter (fun a => decide (key a = k))) := by
    intro k hk
    have hpk : pk k = true := List.of_mem_filter hk
    have : (l.filter (fun a => pk (key a))).filter (fun a => decide (key a = k)) =
        l.filter (fun a => decide (key a = k)) := by
      refine filter_of_filter_imp l ?_
      intro a _ haeq
      have : key a = k := of_decide_eq_true haeq
      rw [this, hpk]
    rw [this]
  rw [List.map_congr_left hinner]
  rw [List.filter_map]
  rfl

theorem mem_groupsBy_iff [DecidableEq κ] {key : α → κ} {l : List α}
    {g : κ × List α} :
    g ∈ groupsBy key l ↔
      (∃ a ∈ l, key a = g.1) ∧
        g.2 = l.filter (fun a => decide (key a = g.1)) := by
  unfold groupsBy
  constructor
  · intro hg
    rcases List.mem_map.mp hg with ⟨k, hk, hgk⟩
    have hk2 : k ∈ l.map key := List.mem_dedup.mp hk
    rcases List.mem_map.mp hk2 with ⟨a, ha, hak⟩
    cases hgk
    exact ⟨⟨a, ha, hak⟩, rfl⟩
  · rintro ⟨⟨a, ha, hak⟩, hsnd⟩
    have hk : g.1 ∈ (l.map key).dedup :=
      List.mem_dedup.mpr (List.mem_map.mpr ⟨a, ha, hak⟩)
    have : g = (g.1, l.filter (fun a => decide (key a = g.1))) := by
      cases g
      simp only at hsnd
      rw [hsnd]
    rw [this]
    exact List.mem_map.mpr ⟨g.1, hk, rfl⟩

theorem groupsBy_keys_nodup [DecidableEq κ] (key : α → κ) (l : List α) :
    ((groupsBy key l).map Prod.fst).Nodup := by
  unfold groupsBy
  rw [List.map_map]
  have : (Prod.fst ∘ fun k => ((k, l.filter (fun a => decide (key a = k))) :
      κ × List α)) = id := rfl
  rw [this, List.map_id]
  exact List.nodup_dedup _

/-! # Lemmas: the concrete boolean orders are linear -/

theorem natLeB_isLinOrd : IsLinOrd natLeB := by
  constructor
  · intro a b
    simp only [natLeB, decide_eq_true_eq]
    omega
  · intro a b c
    simp only [natLeB, decide_eq_true_eq]
    omega
  · intro a b
    simp only [natLeB, decide_eq_true_eq]
    omega

theorem intLeB_isLinOrd : IsLinOrd intLeB := by
  constructor
  · intro a b
    simp only [intLeB, decide_eq_true_eq]
    omega
  · intro a b c
    simp only [intLeB, decide_eq_true_eq]
    omega
  · intro a b
    simp only [intLeB, decide_eq_true_eq]
    omega

theorem charListLe_total : ∀ a b : List Char,
    charListLe a b = true ∨ charListLe b a = true := by
  intro a
  induction a with
  | nil => intro b; left; cases b <;> rfl
  | cons c cs ih =>
    intro b
    cases b with
    | nil => right; rfl
    | cons d ds =>
      simp only [charListLe]
      rcases lt_trichotomy c d with h | h | h
      · left; rw [if_pos h]
      · subst h
        simp only [if_neg (lt_irrefl c)]
        exact ih ds
      · right; rw [if_pos h]

theorem charListLe_trans : ∀ a b c : List Char,
    charListLe a b = true → charListLe b c = true → charListLe a c = true := by
  intro a
  induction a with
  | nil => intro b c _ _; cases c <;> rfl
  | cons x xs ih =>
    intro b c hab hbc
    cases b with
    | nil => exact absurd hab (by simp [charListLe])
    | cons y ys =>
      cases c with
      | nil => exact absurd hbc (by simp [charListLe])
      | cons z zs =>
        simp only [charListLe] at hab hbc ⊢
        rcases lt_trichotomy x y with hxy | hxy | hxy
        · rcases lt_trichotomy y z with hyz | hyz | hyz
          · rw [if_pos (lt_trans hxy hyz)]
          · subst hyz; rw [if_pos hxy]
          · rw [if_neg (asymm hyz), if_pos hyz] at hbc
            exact absurd hbc (by simp)
        · subst hxy
          rcases lt_trichotomy x z with hyz | hyz | hyz
          · rw [if_pos hyz]
          · subst hyz
            rw [if_neg (lt_irrefl x), if_neg (lt_irrefl x)] at hab hbc ⊢
            exact ih ys zs hab hbc
          · rw [if_neg (asymm hyz), if_pos hyz] at hbc
            exact absurd hbc (by simp)
        · rw [if_neg (asymm hxy), if_pos hxy] at hab
          exact absurd hab (by simp)

theorem charListLe_antisymm : ∀ a b : List Char,
    charListLe a b = true → charListLe b a = true → a = b := by
  intro a
  induction a with
  | nil =>
    intro b _ hba
    cases b with
    | nil => rfl
    | cons d ds => exact absurd hba (by simp [charListLe])
  | cons c cs ih =>
    intro b hab hba
    cases b with
    | nil => exact absurd hab (by simp [charListLe])
    | cons d ds =>
      simp only [charListLe] at hab hba
      rcases lt_trichotomy c d with h | h | h
      · rw [if_neg (asymm h), if_pos h] at hba
        exact absurd hba (by simp)
      · subst h
        rw [if_neg (lt_irrefl c), if_neg (lt_irrefl c)] at hab hba
        rw [ih ds hab hba]
      · rw [if_neg (asymm h), if_pos h] at hab
        exact absurd hab (by simp)

theorem strLe_isLinOrd : IsLinOrd strLe := by
  constructor
  · intro a b; exact charListLe_total a.data b.data
  · intro a b c hab hbc; exact charListLe_trans a.data b.data c.data hab hbc
  · intro a b hab hba; exact String.ext (charListLe_antisymm a.data b.data hab hba)

theorem optLe_isLinOrd {le : α → α → Bool} (h : IsLinOrd le) :
    IsLinOrd (optLe le) := by
  constructor
  · intro a b
    cases a with
    | none => left; rfl
    | some x => cases b with
      | none => right; rfl
      | some y => exact h.total x y
  · intro a b c hab hbc
    cases a with
    | none => rfl
    | some x =>
      cases b with
      | none => exact absurd hab (by simp [optLe])
      | some y =>
        cases c with
        | none => exact absurd hbc (by simp [optLe])
        | some z => exact h.trans x y z hab hbc
  · intro a b hab hba
    cases a with
    | none =>
      cases b with
      | none => rfl
      | some y => exact absurd hba (by simp [optLe])
    | some x =>
      cases b with
      | none => exact absurd hab (by simp [optLe])
      | some y => rw [h.antisymm x y hab hba]

theorem pairLe_isLinOrd [DecidableEq α] {le1 : α → α → Bool}
    {le2 : β → β → Bool} (h1 : IsLinOrd le1) (h2 : IsLinOrd le2) :
    IsLinOrd (pairLe le1 le2) := by
  constructor
  · rintro ⟨a1, b1⟩ ⟨a2, b2⟩
    simp only [pairLe]
    by_cases heq : a1 = a2
    · subst heq
      rw [if_pos rfl, if_pos rfl]
      exact h2.total b1 b2
    · rw [if_neg heq, if_neg (fun hc => heq hc.symm)]
      exact h1.total a1 a2
  · rintro ⟨a1, b1⟩ ⟨a2, b2⟩ ⟨a3, b3⟩ hab hbc
    simp only [pairLe] at hab hbc ⊢
    by_cases h12 : a1 = a2
    · subst h12
      rw [if_pos rfl] at hab
      by_cases h23 : a1 = a3
      · subst h23
        rw [if_pos rfl] at hbc ⊢
        exact h2.trans b1 b2 b3 hab hbc
      · rw [if_neg h23] at hbc ⊢
        exact hbc
    · rw [if_neg h12] at hab
      by_cases h23 : a2 = a3
      · subst h23
        rw [if_neg h12]
        exact hab
      · rw [if_neg h23] at hbc
        have h13 : a1 ≠ a3 := by
          intro hc
          subst hc
          exact h12 (h1.antisymm a1 a2 hab hbc)
        rw [if_neg h13]
        exact h1.trans a1 a2 a3 hab hbc
  · rintro ⟨a1, b1⟩ ⟨a2, b2⟩ hab hba
    simp only [pairLe] at hab hba
    by_cases heq : a1 = a2
    · subst heq
      rw [if_pos rfl] at hab hba
      rw [h2.antisymm b1 b2 hab hba]
    · rw [if_neg heq] at hab
      rw [if_neg (fun hc => heq hc.symm)] at hba
      exact absurd (h1.antisymm a1 a2 hab hba) heq

theorem optStrLe_isLinOrd : IsLinOrd optStrLe := optLe_isLinOrd strLe_isLinOrd

theorem optIntLe_isLinOrd : IsLinOrd optIntLe := optLe_isLinOrd intLeB_isLinOrd

theorem rkeyLe_isLinOrd : IsLinOrd rkeyLe :=
  pairLe_isLinOrd strLe_isLinOrd (pairLe_isLinOrd strLe_isLinOrd
    (pairLe_isLinOrd strLe_isLinOrd (pairLe_isLinOrd optStrLe_isLinOrd
      (pairLe_isLinOrd optStrLe_isLinOrd optIntLe_isLinOrd))))

theorem pkeyLe_isLinOrd : IsLinOrd pkeyLe :=
  pairLe_isLinOrd strLe_isLinOrd (pairLe_isLinOrd strLe_isLinOrd
    (pairLe_isLinOrd optStrLe_isLinOrd intLeB_isLinOrd))

/-! # Lemmas: JavaScript rounding bridge -/

/-- The exact integer formula implements `Math.round` of the rational
quotient: rounding half toward positive infinity. -/
theorem jsRoundDiv_eq_floor (a b : Int) (hb : 0 < b) :
    jsRoundDiv a b = Int.floor ((a : ℚ) / (b : ℚ) + 1 / 2) := by
  unfold jsRoundDiv
  have hb2 : (0 : ℚ) < (b : ℚ) := by exact_mod_cast hb
  have hq : (a : ℚ) / (b : ℚ) + 1 / 2 = ((2 * a + b : Int) : ℚ) / ((2 * b : Int) : ℚ) := by
    push_cast
    field_simp
    ring
  rw [hq]
  have h2b : ((2 * b : Int) : ℚ) = (((2 * b).toNat : Nat) : ℚ) := by
    have : (2 * b : Int) = ((2 * b).toNat : Int) := by omega
    rw [this]
    push_cast
    rfl
  rw [h2b, Rat.floor_intCast_div_natCast]
  have : ((2 * b).toNat : Int) = 2 * b := by omega
  rw [this]

/-! # Lemmas: the longest-streak loop -/

theorem pairwise_lt_append_middle {pre rest : List Nat} {prev : Nat}
    (hsort : (pre ++ prev :: rest).Pairwise (· < ·)) :
    ∀ x ∈ pre, x < prev := by
  intro x hx
  exact (List.pairwise_append.mp hsort).2.2 x hx prev (List.mem_cons_self _ _)

/-- Every element of the processed part of the list that is smaller than
the next unprocessed date is at most the previous date. -/
theorem mem_le_prev_of_lt {pre rest : List Nat} {prev e : Nat}
    (hsort : (pre ++ prev :: e :: rest).Pairwise (· < ·)) :
    ∀ x ∈ pre ++ prev :: e :: rest, x < e → x ≤ prev := by
  intro x hx hxe
  rcases List.mem_append.mp hx with hxp | hxc
  · exact le_of_lt (pairwise_lt_append_middle hsort x hxp)
  · rcases List.mem_cons.mp hxc with rfl | hxc2
    · exact le_refl _
    · rcases List.mem_cons.mp hxc2 with rfl | hxc3
      · exact absurd hxe (lt_irrefl _)
      · have hpair := (List.pairwise_append.mp hsort).2.1
        have := (List.pairwise_cons.mp (List.pairwise_cons.mp hpair).2).1 x hxc3
        omega

/-- Loop invariant of the streak fold: `cur` bounds every run ending at
`prev`, `best` bounds every run ending at or before `prev` and is itself
attained, so the fold returns the greatest attained run length. -/
theorem streakAux_isGreatest (L : List Nat) (hsort : L.Pairwise (· < ·)) :
    ∀ (rest pre : List Nat) (prev cur best : Nat),
    L = pre ++ prev :: rest →
    1 ≤ cur →
    (∀ k, k < cur → k ≤ prev ∧ prev - k ∈ L) →
    (∃ d, streakRun (· ∈ L) d best) →
    cur ≤ best →
    (∀ n d, streakRun (· ∈ L) d n → d + n ≤ prev + 1 → n ≤ best) →
    (∀ n d, streakRun (· ∈ L) d n → d + n = prev + 1 → n ≤ cur) →
    IsGreatest {n | ∃ d, streakRun (· ∈ L) d n} (streakAux rest prev cur best)
  | [], pre, prev, cur, best, hL, _, _, hbest, _, h3, _ => by
    constructor
    · exact hbest
    · rintro n ⟨d, hrun⟩
      simp only [streakAux]
      rcases Nat.eq_zero_or_pos n with rfl | hn
      · exact Nat.zero_le _
      · have hE : d + (n - 1) ∈ L := hrun (n - 1) (by omega)
        have hEle : d + (n - 1) ≤ prev := by
          rw [hL] at hE
          rcases List.mem_append.mp hE with hp | hc
          · exact le_of_lt (pairwise_lt_append_middle (hL ▸ hsort) _ hp)
          · rcases List.mem_cons.mp hc with heq | habs
            · omega
            · exact absurd habs (List.not_mem_nil _)
        exact h3 n d hrun (by omega)
  | e :: rest2, pre, prev, cur, best, hL, hcur1, hchain, hbest, hcb, h3, h4 => by
    have hL2 : L = (pre ++ [prev]) ++ e :: rest2 := by
      rw [hL, List.append_assoc]
      rfl
    have hprevE : prev < e := by
      have hpair := (List.pairwise_append.mp (hL ▸ hsort)).2.1
      exact (List.pairwise_cons.mp hpair).1 e (List.mem_cons_self _ _)
    have heL : e ∈ L := by
      rw [hL]
      exact List.mem_append_right _ (List.mem_cons_of_mem _ (List.mem_cons_self _ _))
    have hxlt : ∀ x ∈ L, x < e → x ≤ prev := fun x hx =>
      mem_le_prev_of_lt (hL ▸ hsort) x (hL ▸ hx)
    -- a run of length at least two ending exactly at e forces e = prev + 1
    have hend : ∀ n d, streakRun (· ∈ L) d n → 2 ≤ n → d + n = e + 1 →
        e = prev + 1 := by
      intro n d hrun hn2 hde
      have h1 : d + (n - 2) ∈ L := hrun (n - 2) (by omega)
      have h2 : d + (n - 2) < e := by omega
      have h3b := hxlt _ h1 h2
      omega
    by_cases hadj : e = prev + 1
    · have hunf : streakAux (e :: rest2) prev cur best =
          streakAux rest2 e (cur + 1) (max best (cur + 1)) := by
        simp only [streakAux]
        rw [if_pos (by omega : (e : Int) - (prev : Int) = 1)]
      have hchainE : ∀ k, k < cur + 1 → k ≤ e ∧ e - k ∈ L := by
        intro k hk
        rcases Nat.eq_zero_or_pos k with rfl | hkpos
        · refine ⟨Nat.zero_le _, ?_⟩
          rw [Nat.sub_zero]
          exact heL
        · have hc := hchain (k - 1) (by omega)
          refine ⟨by omega, ?_⟩
          have heq : e - k = prev - (k - 1) := by omega
          rw [heq]
          exact hc.2
      have hbestE : ∃ d, streakRun (· ∈ L) d (max best (cur + 1)) := by
        rcases Nat.le_total (cur + 1) best with hle | hle
        · rw [Nat.max_eq_left hle]
          exact hbest
        · rw [Nat.max_eq_right hle]
          refine ⟨e - cur, ?_⟩
          intro k hk
          have hcurle : cur ≤ e := (hchainE cur (by omega)).1
          have hc := hchainE (cur - k) (by omega)
          have heq : (e - cur) + k = e - (cur - k) := by omega
          rw [heq]
          exact hc.2
      have h3E : ∀ n d, streakRun (· ∈ L) d n → d + n ≤ e + 1 →
          n ≤ max best (cur + 1) := by
        intro n d hrun hde
        rcases Nat.eq_zero_or_pos n with rfl | hn
        · exact Nat.zero_le _
        by_cases hEe : d + n = e + 1
        · rcases Nat.lt_or_ge n 2 with hn1 | hn2
          · exact le_trans (by omega) (le_max_right best (cur + 1))
          · have hrun2 : streakRun (· ∈ L) d (n - 1) := fun k hk =>
              hrun k (by omega)
            have hd : d + (n - 1) = prev + 1 := by omega
            have := h4 (n - 1) d hrun2 hd
            exact le_trans (by omega) (le_max_right best (cur + 1))
        · have hE : d + (n - 1) ∈ L := hrun (n - 1) (by omega)
          have hlt : d + (n - 1) < e := by omega
          have hle2 := hxlt _ hE hlt
          exact le_trans (h3 n d hrun (by omega)) (le_max_left _ _)
      have h4E : ∀ n d, streakRun (· ∈ L) d n → d + n = e + 1 → n ≤ cur + 1 := by
        intro n d hrun hde
        rcases Nat.lt_or_ge n 2 with hn1 | hn2
        · omega
        · have hrun2 : streakRun (· ∈ L) d (n - 1) := fun k hk =>
            hrun k (by omega)
          have hd : d + (n - 1) = prev + 1 := by omega
          have := h4 (n - 1) d hrun2 hd
          omega
      rw [hunf]
      exact streakAux_isGreatest L hsort rest2 (pre ++ [prev]) e (cur + 1)
        (max best (cur + 1)) hL2 (by omega) hchainE hbestE (le_max_right _ _)
        h3E h4E
    · have hunf : streakAux (e :: rest2) prev cur best =
          streakAux rest2 e 1 (max best 1) := by
        simp only [streakAux]
        rw [if_neg (by omega : ¬((e : Int) - (prev : Int) = 1))]
      have hmax : max best 1 = best := Nat.max_eq_left (by omega)
      have hchainE : ∀ k, k < 1 → k ≤ e ∧ e - k ∈ L := by
        intro k hk
        have hk0 : k = 0 := by omega
        subst hk0
        refine ⟨Nat.zero_le _, ?_⟩
        rw [Nat.sub_zero]
        exact heL
      have hbestE : ∃ d, streakRun (· ∈ L) d (max best 1) := by
        rw [hmax]
        exact hbest
      have h3E : ∀ n d, streakRun (· ∈ L) d n → d + n ≤ e + 1 →
          n ≤ max best 1 := by
        intro n d hrun hde
        rw [hmax]
        rcases Nat.eq_zero_or_pos n with rfl | hn
        · exact Nat.zero_le _
        by_cases hEe : d + n = e + 1
        · rcases Nat.lt_or_ge n 2 with hn1 | hn2
          · omega
          · exact absurd (hend n d hrun hn2 hEe) hadj
        · have hE : d + (n - 1) ∈ L := hrun (n - 1) (by omega)
          have hlt : d + (n - 1) < e := by omega
          have hle2 := hxlt _ hE hlt
          exact h3 n d hrun (by omega)
      have h4E : ∀ n d, streakRun (· ∈ L) d n → d + n = e + 1 → n ≤ 1 := by
        intro n d hrun hde
        rcases Nat.lt_or_ge n 2 with hn1 | hn2
        · omega
        · exact absurd (hend n d hrun hn2 hde) hadj
      rw [hunf]
      exact streakAux_isGreatest L hsort rest2 (pre ++ [prev]) e 1 (max best 1)
        hL2 (by omega) hchainE hbestE (by omega) h3E h4E

/-- On a strictly sorted date list the streak loop computes the greatest
length of a run of consecutive members. -/
theorem longestStreakOf_isGreatest (l : List Nat) (hsort : l.Pairwise (· < ·)) :
    IsGreatest {n | ∃ d, streakRun (· ∈ l) d n} (longestStreakOf l) := by
  cases l with
  | nil =>
    constructor
    · exact ⟨0, fun k hk => absurd hk (Nat.not_lt_zero k)⟩
    · rintro n ⟨d, hrun⟩
      rcases Nat.eq_zero_or_pos n with rfl | hn
      · exact le_refl _
      · exact absurd (hrun 0 hn) (List.not_mem_nil _)
  | cons d0 rest =>
    have hmem0 : ∀ x ∈ d0 :: rest, d0 ≤ x := by
      intro x hx
      rcases List.mem_cons.mp hx with rfl | hx2
      · exact le_refl _
      · exact le_of_lt ((List.pairwise_cons.mp hsort).1 x hx2)
    have h := streakAux_isGreatest (d0 :: rest) hsort rest [] d0 1 (max 0 1)
      rfl (le_refl 1) ?_ ?_ ?_ ?_ ?_
    · exact h
    · intro k hk
      have hk0 : k = 0 := by omega
      subst hk0
      refine ⟨Nat.zero_le _, ?_⟩
      rw [Nat.sub_zero]
      exact List.mem_cons_self _ _
    · refine ⟨d0, ?_⟩
      intro k hk
      have hk0 : k = 0 := by omega
      subst hk0
      rw [Nat.add_zero]
      exact List.mem_cons_self _ _
    · decide
    · intro n d hrun hle
      rcases Nat.lt_or_ge n 2 with hn1 | hn2
      · omega
      · have hd := hmem0 d (hrun 0 (by omega))
        omega
    · intro n d hrun heq
      rcases Nat.lt_or_ge n 2 with hn1 | hn2
      · omega
      · have hd := hmem0 d (hrun 0 (by omega))
        omega

/-! # Lemmas: the sorted date list of the activity heatmap -/

theorem activity_longestStreak_eq (db : DB) (p : WrappedParams) :
    (getWrappedActivityPatterns db p).longestStreak =
      longestStreakOf (sortBy natLeB
        ((groupsByKeyAsc (fun r => epochDay r.t) (wrappedRows db p)).map
          Prod.fst)) := by
  have h0 : (getWrappedActivityPatterns db p).longestStreak =
      longestStreakOf (sortBy natLeB
        (((groupsByKeyAsc (fun r => epochDay r.t) (wrappedRows db p)).map
          (fun g => ({ date := g.1, watchTimeSeconds := sumBy durOf g.2,
                       playCount := g.2.length } : DayActivity))).map
          (fun d => d.date))) := rfl
  rw [h0, List.map_map]
  rfl

theorem activityDates_mem (db : DB) (p : WrappedParams) (d2 : Nat) :
    d2 ∈ sortBy natLeB
        ((groupsByKeyAsc (fun r => epochDay r.t) (wrappedRows db p)).map
          Prod.fst) ↔ dayHasSession db p d2 := by
  rw [mem_sortBy]
  constructor
  · intro h
    rcases List.mem_map.mp h with ⟨g, hg, hgd⟩
    have hg2 : g ∈ groupsBy (fun r => epochDay r.t) (wrappedRows db p) := by
      have := mem_sortBy.mp hg
      exact this
    rcases (mem_groupsBy_iff.mp hg2).1 with ⟨r, hr, hrk⟩
    exact ⟨r, hr, by rw [hrk, hgd]⟩
  · rintro ⟨r, hr, hrd⟩
    refine List.mem_map.mpr
      ⟨(d2, (wrappedRows db p).filter (fun a => decide (epochDay a.t = d2))),
        ?_, rfl⟩
    apply mem_sortBy.mpr
    exact mem_groupsBy_iff.mpr ⟨⟨r, hr, hrd⟩, rfl⟩

theorem activityDates_sorted (db : DB) (p : WrappedParams) :
    (sortBy natLeB
        ((groupsByKeyAsc (fun r => epochDay r.t) (wrappedRows db p)).map
          Prod.fst)).Pairwise (· < ·) := by
  have hnod0 : ((groupsByKeyAsc (fun r => epochDay r.t)
      (wrappedRows db p)).map Prod.fst).Nodup := by
    have hperm : ((groupsBy (fun r => epochDay r.t) (wrappedRows db p)).map
        Prod.fst).Perm ((groupsByKeyAsc (fun r => epochDay r.t)
          (wrappedRows db p)).map Prod.fst) :=
      ((sortBy_perm _ _).map _).symm
    exact hperm.nodup (groupsBy_keys_nodup _ _)
  have hnod : (sortBy natLeB
      ((groupsByKeyAsc (fun r => epochDay r.t) (wrappedRows db p)).map
        Prod.fst)).Nodup := (sortBy_perm _ _).symm.nodup hnod0
  have hle : (sortBy natLeB
      ((groupsByKeyAsc (fun r => epochDay r.t) (wrappedRows db p)).map
        Prod.fst)).Pairwise (fun a b => natLeB a b = true) :=
    sortBy_pairwise natLeB_isLinOrd.total natLeB_isLinOrd.trans _
  refine (hle.and hnod).imp ?_
  intro a b hab
  have h1 : a ≤ b := by
    have := hab.1
    simp only [natLeB, decide_eq_true_eq] at this
    exact this
  exact lt_of_le_of_ne h1 hab.2

/-! # Lemmas: the reduce-based peak picker -/

theorem foldl_peak_split (f : α → Int) :
    ∀ (xs : List α) (x : α), ∃ l₁ l₂,
      x :: xs =
        l₁ ++ (List.foldl (fun mx h => if f h > f mx then h else mx) x xs) :: l₂ ∧
      (∀ y ∈ x :: xs,
        f y ≤ f (List.foldl (fun mx h => if f h > f mx then h else mx) x xs)) ∧
      (∀ y ∈ l₁,
        f y < f (List.foldl (fun mx h => if f h > f mx then h else mx) x xs)) := by
  intro xs
  induction xs with
  | nil =>
    intro x
    refine ⟨[], [], rfl, ?_, ?_⟩
    · intro y hy
      rcases List.mem_cons.mp hy with rfl | habs
      · exact le_refl _
      · exact absurd habs (List.not_mem_nil _)
    · intro y hy
      exact absurd hy (List.not_mem_nil _)
  | cons y ys ih =>
    intro x
    rw [List.foldl_cons]
    by_cases hxy : f y > f x
    · rw [if_pos hxy]
      rcases ih y with ⟨l₁, l₂, hsplit, hbound, hstrict⟩
      refine ⟨x :: l₁, l₂, ?_, ?_, ?_⟩
      · rw [List.cons_append, ← hsplit]
      · intro z hz
        rcases List.mem_cons.mp hz with rfl | hz2
        · have hym := hbound y (List.mem_cons_self _ _)
          omega
        · exact hbound z hz2
      · intro z hz
        rcases List.mem_cons.mp hz with rfl | hz2
        · have hym := hbound y (List.mem_cons_self _ _)
          omega
        · exact hstrict z hz2
    · rw [if_neg hxy]
      rcases ih x with ⟨l₁, l₂, hsplit, hbound, hstrict⟩
      cases l₁ with
      | nil =>
        rw [List.nil_append] at hsplit
        have hm := (List.cons.injEq _ _ _ _).mp hsplit
        refine ⟨[], y :: l₂, ?_, ?_, ?_⟩
        · rw [List.nil_append, ← hm.1, hm.2]
        · intro z hz
          rcases List.mem_cons.mp hz with rfl | hz2
          · rw [← hm.1]
          · rcases List.mem_cons.mp hz2 with rfl | hz3
            · rw [← hm.1]; omega
            · exact hbound z (List.mem_cons_of_mem _ hz3)
        · intro z hz
          exact absurd hz (List.not_mem_nil _)
      | cons a t =>
        rw [List.cons_append] at hsplit
        have hm := (List.cons.injEq _ _ _ _).mp hsplit
        refine ⟨x :: y :: t, l₂, ?_, ?_, ?_⟩
        · conv_lhs => rw [hm.2]
          rw [List.cons_append, List.cons_append]
        · intro z hz
          rcases List.mem_cons.mp hz with rfl | hz2
          · exact hbound z (List.mem_cons_self _ _)
          · rcases List.mem_cons.mp hz2 with rfl | hz3
            · have hxb := hbound x (List.mem_cons_self _ _)
              omega
            · exact hbound z (List.mem_cons_of_mem _ hz3)
        · intro z hz
          rcases List.mem_cons.mp hz with rfl | hz2
          · have hfa := hstrict a (List.mem_cons_self _ _)
            conv_lhs => rw [hm.1]
            exact hfa
          · rcases List.mem_cons.mp hz2 with rfl | hz3
            · have hxs := hstrict a (List.mem_cons_self _ _)
              rw [← hm.1] at hxs
              omega
            · exact hstrict z (List.mem_cons_of_mem _ hz3)

/-- The JS reduce returns the first element of maximal measure: the list
splits around the result, everything is bounded by it and everything
strictly before it is strictly smaller. -/
theorem reduceMaxBy_split (f : α → Int) (dflt : α) (l : List α) (hne : l ≠ []) :
    ∃ l₁ l₂, l = l₁ ++ (reduceMaxBy f dflt l) :: l₂ ∧
      (∀ y ∈ l, f y ≤ f (reduceMaxBy f dflt l)) ∧
      (∀ y ∈ l₁, f y < f (reduceMaxBy f dflt l)) := by
  cases l with
  | nil => exact absurd rfl hne
  | cons x xs => exact foldl_peak_split f xs x

/-! # Lemmas: find? over grouped results -/

theorem find?_eq_of_unique {p : α → Bool} {l : List α} {x : α}
    (hx : x ∈ l) (hpx : p x = true)
    (huniq : ∀ a ∈ l, p a = true → a = x) :
    l.find? p = some x := by
  induction l with
  | nil => exact absurd hx (List.not_mem_nil _)
  | cons a t ih =>
    by_cases hpa : p a = true
    · rw [List.find?_cons_of_pos _ hpa, huniq a (List.mem_cons_self _ _) hpa]
    · rw [List.find?_cons_of_neg _ hpa]
      rcases List.mem_cons.mp hx with rfl | hx2
      · exact absurd hpx hpa
      · exact ih hx2 (fun b hb hpb => huniq b (List.mem_cons_of_mem _ hb) hpb)

theorem find?_groupsByKeyAsc_pos (key : α → Nat) (l : List α) (k : Nat)
    (h : ∃ a ∈ l, key a = k) :
    (groupsByKeyAsc key l).find? (fun g => decide (g.1 = k)) =
      some (k, l.filter (fun a => decide (key a = k))) := by
  refine find?_eq_of_unique ?_ (by simp) ?_
  · apply mem_sortBy.mpr
    exact mem_groupsBy_iff.mpr ⟨h, rfl⟩
  · intro g hg hgk
    have hg2 : g ∈ groupsBy key l := mem_sortBy.mp hg
    have hk : g.1 = k := of_decide_eq_true hgk
    have hsnd := (mem_groupsBy_iff.mp hg2).2
    cases g
    simp only at hk hsnd
    rw [hk] at hsnd
    rw [hk, hsnd]

theorem find?_groupsByKeyAsc_neg (key : α → Nat) (l : List α) (k : Nat)
    (h : ∀ a ∈ l, key a ≠ k) :
    (groupsByKeyAsc key l).find? (fun g => decide (g.1 = k)) = none := by
  rw [List.find?_eq_none]
  intro g hg
  have hg2 : g ∈ groupsBy key l := mem_sortBy.mp hg
  rcases (mem_groupsBy_iff.mp hg2).1 with ⟨a, ha, hak⟩
  simp only [decide_eq_true_eq]
  intro hc
  exact h a ha (by rw [hak, hc])

/-! # Lemmas: bucket formulas of the activity patterns -/

theorem activity_hourly_eq (db : DB) (p : WrappedParams) :
    (getWrappedActivityPatterns db p).hourlyPatterns =
      (List.range 24).map (fun h =>
        match ((groupsByKeyAsc (fun r => hourOfDay r.t) (wrappedRows db p)).map
            (fun g => ({ hour := g.1, watchTimeSeconds := sumBy durOf g.2,
                         playCount := g.2.length } : HourlyPattern))).find?
            (fun st => decide (st.hour = h)) with
        | some st => { hour := h, watchTimeSeconds := st.watchTimeSeconds,
                       playCount := st.playCount }
        | none => { hour := h, watchTimeSeconds := 0, playCount := 0 }) := rfl

theorem activity_hourly_bucket (db : DB) (p : WrappedParams) (i : Nat)
    (hi : i < 24) :
    (getWrappedActivityPatterns db p).hourlyPatterns[i]? =
      some { hour := i,
             watchTimeSeconds := sumBy durOf ((wrappedRows db p).filter
               (fun r => decide (hourOfDay r.t = i))),
             playCount := ((wrappedRows db p).filter
               (fun r => decide (hourOfDay r.t = i))).length } := by
  rw [activity_hourly_eq, List.getElem?_map,
    List.getElem?_eq_getElem (by simpa using hi)]
  simp only [List.getElem_range, Option.map_some']
  congr 1
  rw [List.find?_map]
  have hpred : ((fun (st : HourlyPattern) => decide (st.hour = i)) ∘
      (fun g => ({ hour := g.1, watchTimeSeconds := sumBy durOf g.2,
                   playCount := g.2.length } : HourlyPattern))) =
      (fun (g : Nat × List SIRow) => decide (g.1 = i)) := rfl
  rw [hpred]
  by_cases hex : ∃ r ∈ wrappedRows db p, hourOfDay r.t = i
  · rw [find?_groupsByKeyAsc_pos _ _ _ hex]
    rfl
  · push_neg at hex
    rw [find?_groupsByKeyAsc_neg _ _ _ hex]
    have hfil : (wrappedRows db p).filter
        (fun r => decide (hourOfDay r.t = i)) = [] := by
      rw [List.filter_eq_nil_iff]
      intro r hr
      simpa using hex r hr
    rw [hfil]
    rfl

theorem activity_weekday_eq (db : DB) (p : WrappedParams) :
    (getWrappedActivityPatterns db p).weekdayPatterns =
      WEEKDAY_NAMES.enum.map (fun e =>
        let dbDowIndex := if e.1 = 6 then 0 else e.1 + 1
        match ((groupsByKeyAsc (fun r => pgDow r.t) (wrappedRows db p)).map
            (fun g => ((g.1, sumBy durOf g.2, g.2.length) :
              Nat × Int × Nat))).find?
            (fun st => decide (st.1 = dbDowIndex)) with
        | some st => { day := e.2, dayIndex := e.1,
                       watchTimeSeconds := st.2.1, playCount := st.2.2 }
        | none => { day := e.2, dayIndex := e.1, watchTimeSeconds := 0,
                    playCount := 0 }) := rfl

theorem weekday_component (db : DB) (p : WrappedParams) (i k : Nat)
    (name : String) (hk : (if i = 6 then 0 else i + 1) = k) :
    (match ((groupsByKeyAsc (fun r => pgDow r.t) (wrappedRows db p)).map
        (fun g => ((g.1, sumBy durOf g.2, g.2.length) : Nat × Int × Nat))).find?
        (fun st => decide (st.1 = (if i = 6 then 0 else i + 1))) with
     | some st => ({ day := name, dayIndex := i, watchTimeSeconds := st.2.1,
                     playCount := st.2.2 } : WeekdayPattern)
     | none => { day := name, dayIndex := i, watchTimeSeconds := 0,
                 playCount := 0 }) = weekdayBucketSpec db p i k name := by
  subst hk
  rw [List.find?_map]
  have hpred : ((fun (st : Nat × Int × Nat) =>
      decide (st.1 = (if i = 6 then 0 else i + 1))) ∘
      (fun (g : Nat × List SIRow) => ((g.1, sumBy durOf g.2, g.2.length) :
        Nat × Int × Nat))) =
      (fun (g : Nat × List SIRow) =>
        decide (g.1 = (if i = 6 then 0 else i + 1))) := rfl
  rw [hpred]
  by_cases hex : ∃ r ∈ wrappedRows db p, pgDow r.t = (if i = 6 then 0 else i + 1)
  · rw [find?_groupsByKeyAsc_pos _ _ _ hex]
    rfl
  · push_neg at hex
    rw [find?_groupsByKeyAsc_neg _ _ _ hex]
    unfold weekdayBucketSpec
    have hfil : (wrappedRows db p).filter
        (fun r => decide (pgDow r.t = (if i = 6 then 0 else i + 1))) = [] := by
      rw [List.filter_eq_nil_iff]
      intro r hr
      simpa using hex r hr
    rw [hfil]
    rfl

theorem activity_weekday_closed (db : DB) (p : WrappedParams) :
    (getWrappedActivityPatterns db p).weekdayPatterns =
      [weekdayBucketSpec db p 0 1 ("Monday"),
       weekdayBucketSpec db p 1 2 ("Tuesday"),
       weekdayBucketSpec db p 2 3 ("Wednesday"),
       weekdayBucketSpec db p 3 4 ("Thursday"),
       weekdayBucketSpec db p 4 5 ("Friday"),
       weekdayBucketSpec db p 5 6 ("Saturday"),
       weekdayBucketSpec db p 6 0 ("Sunday")] := by
  rw [activity_weekday_eq]
  have henum : WEEKDAY_NAMES.enum =
      [(0, "Monday"), (1, "Tuesday"), (2, "Wednesday"), (3, "Thursday"),
       (4, "Friday"), (5, "Saturday"), (6, "Sunday")] := rfl
  rw [henum]
  simp only [List.map_cons, List.map_nil, List.cons.injEq, and_true]
  exact ⟨weekday_component db p 0 1 _ rfl, weekday_component db p 1 2 _ rfl,
    weekday_component db p 2 3 _ rfl, weekday_component db p 3 4 _ rfl,
    weekday_component db p 4 5 _ rfl, weekday_component db p 5 6 _ rfl,
    weekday_component db p 6 0 _ rfl⟩

theorem activity_monthly_eq (db : DB) (p : WrappedParams) :
    (getWrappedActivityPatterns db p).monthlyTotals =
      MONTH_NAMES.enum.map (fun e =>
        let month := e.1 + 1
        match ((groupsByKeyAsc (fun r => monthOfTime r.t) (wrappedRows db p)).map
            (fun g => ((g.1, sumBy durOf g.2, g.2.length) :
              Nat × Int × Nat))).find?
            (fun st => decide (st.1 = month)) with
        | some st => { month := month, monthName := e.2,
                       watchTimeSeconds := st.2.1, playCount := st.2.2 }
        | none => { month := month, monthName := e.2, watchTimeSeconds := 0,
                    playCount := 0 }) := rfl

theorem month_component (db : DB) (p : WrappedParams) (i : Nat) (name : String) :
    (match ((groupsByKeyAsc (fun r => monthOfTime r.t) (wrappedRows db p)).map
        (fun g => ((g.1, sumBy durOf g.2, g.2.length) : Nat × Int × Nat))).find?
        (fun st => decide (st.1 = i + 1)) with
     | some st => ({ month := i + 1, monthName := name,
                     watchTimeSeconds := st.2.1, playCount := st.2.2 } :
                     MonthlyTotal)
     | none => { month := i + 1, monthName := name, watchTimeSeconds := 0,
                 playCount := 0 }) = monthBucketSpec db p (i + 1) name := by
  rw [List.find?_map]
  have hpred : ((fun (st : Nat × Int × Nat) => decide (st.1 = i + 1)) ∘
      (fun (g : Nat × List SIRow) => ((g.1, sumBy durOf g.2, g.2.length) :
        Nat × Int × Nat))) =
      (fun (g : Nat × List SIRow) => decide (g.1 = i + 1)) := rfl
  rw [hpred]
  by_cases hex : ∃ r ∈ wrappedRows db p, monthOfTime r.t = i + 1
  · rw [find?_groupsByKeyAsc_pos _ _ _ hex]
    rfl
  · push_neg at hex
    rw [find?_groupsByKeyAsc_neg _ _ _ hex]
    unfold monthBucketSpec
    have hfil : (wrappedRows db p).filter
        (fun r => decide (monthOfTime r.t = i + 1)) = [] := by
      rw [List.filter_eq_nil_iff]
      intro r hr
      simpa using hex r hr
    rw [hfil]
    rfl

theorem activity_monthly_closed (db : DB) (p : WrappedParams) :
    (getWrappedActivityPatterns db p).monthlyTotals =
      [monthBucketSpec db p 1 ("January"), monthBucketSpec db p 2 ("February"),
       monthBucketSpec db p 3 ("March"), monthBucketSpec db p 4 ("April"),
       monthBucketSpec db p 5 ("May"), monthBucketSpec db p 6 ("June"),
       monthBucketSpec db p 7 ("July"), monthBucketSpec db p 8 ("August"),
       monthBucketSpec db p 9 ("September"), monthBucketSpec db p 10 ("October"),
       monthBucketSpec db p 11 ("November"),
       monthBucketSpec db p 12 ("December")] := by
  rw [activity_monthly_eq]
  have henum : MONTH_NAMES.enum =
      [(0, "January"), (1, "February"), (2, "March"), (3, "April"),
       (4, "May"), (5, "June"), (6, "July"), (7, "August"), (8, "September"),
       (9, "October"), (10, "November"), (11, "December")] := rfl
  rw [henum]
  simp only [List.map_cons, List.map_nil, List.cons.injEq, and_true]
  exact ⟨month_component db p 0 _, month_component db p 1 _,
    month_component db p 2 _, month_component db p 3 _,
    month_component db p 4 _, month_component db p 5 _,
    month_component db p 6 _, month_component db p 7 _,
    month_component db p 8 _, month_component db p 9 _,
    month_component db p 10 _, month_component db p 11 _⟩

/-- A reduce-picked peak over a list whose secondary key is strictly
increasing in list order: the result is a member, it has maximal
measure, and among equal measures it has the least secondary key. -/
theorem peak_spec (f : α → Int) (g : α → Nat) (dflt : α) (l : List α)
    (hne : l ≠ []) (hpw : l.Pairwise (fun a b => g a < g b)) :
    reduceMaxBy f dflt l ∈ l ∧
    (∀ o ∈ l, f o ≤ f (reduceMaxBy f dflt l)) ∧
    (∀ o ∈ l, f o = f (reduceMaxBy f dflt l) → g (reduceMaxBy f dflt l) ≤ g o) := by
  obtain ⟨l₁, l₂, hsplit, hbound, hstrict⟩ := reduceMaxBy_split f dflt l hne
  refine ⟨?_, hbound, ?_⟩
  · have hm : reduceMaxBy f dflt l ∈ l₁ ++ reduceMaxBy f dflt l :: l₂ :=
      List.mem_append_right _ (List.mem_cons_self _ _)
    rw [← hsplit] at hm
    exact hm
  · intro o ho hfo
    rcases List.mem_append.mp (hsplit ▸ ho) with h1 | h2
    · have := hstrict o h1
      omega
    · rcases List.mem_cons.mp h2 with heq | h3
      · rw [heq]
      · have hp2 := (List.pairwise_append.mp (hsplit ▸ hpw)).2.1
        have := (List.pairwise_cons.mp hp2).1 o h3
        omega

theorem activity_hourly_length (db : DB) (p : WrappedParams) :
    (getWrappedActivityPatterns db p).hourlyPatterns.length = 24 := by
  rw [activity_hourly_eq]
  simp

theorem activity_hourly_hours_lt (db : DB) (p : WrappedParams) :
    (getWrappedActivityPatterns db p).hourlyPatterns.Pairwise
      (fun a b => a.hour < b.hour) := by
  have hlen := activity_hourly_length db p
  rw [List.pairwise_iff_getElem]
  intro i j hi hj hij
  have hbi := activity_hourly_bucket db p i (by omega)
  have hbj := activity_hourly_bucket db p j (by omega)
  rw [List.getElem?_eq_getElem hi] at hbi
  rw [List.getElem?_eq_getElem hj] at hbj
  rw [Option.some.inj hbi, Option.some.inj hbj]
  exact hij

theorem activity_peakHour_eq (db : DB) (p : WrappedParams) :
    (getWrappedActivityPatterns db p).peakHour =
      (reduceMaxBy (fun h => h.watchTimeSeconds)
        { hour := 0, watchTimeSeconds := 0, playCount := 0 }
        ((getWrappedActivityPatterns db p).hourlyPatterns)).hour := rfl

theorem activity_peakWeekday_eq (db : DB) (p : WrappedParams) :
    (getWrappedActivityPatterns db p).peakWeekday =
      (reduceMaxBy (fun w => w.watchTimeSeconds)
        { day := "", dayIndex := 0, watchTimeSeconds := 0, playCount := 0 }
        ((getWrappedActivityPatterns db p).weekdayPatterns)).day := rfl

theorem activity_peakMonth_eq (db : DB) (p : WrappedParams) :
    (getWrappedActivityPatterns db p).peakMonth =
      (reduceMaxBy (fun m => m.watchTimeSeconds)
        { month := 0, monthName := "", watchTimeSeconds := 0, playCount := 0 }
        ((getWrappedActivityPatterns db p).monthlyTotals)).month := rfl

/-! # Claim theorems -/

/-- C6: `getWrappedActivityPatterns` always returns a full grid: 24
hourly buckets for hours 0..23 in ascending order, 7 weekday buckets in
Monday-first order whose PostgreSQL day-of-week keys are the correct
remap of the 0 = Sunday convention, and 12 month buckets for months
1..12 in order; each bucket aggregates exactly the qualifying rows of
its hour / weekday / month, so a bucket with no qualifying sessions
reports zero watch time and zero plays (the filter underneath it is
empty and its sum and length are 0). -/
theorem claim6_bucket_grids (db : DB) (p : WrappedParams) :
    ((getWrappedActivityPatterns db p).hourlyPatterns.length = 24 ∧
      ∀ i, i < 24 → (getWrappedActivityPatterns db p).hourlyPatterns[i]? =
        some { hour := i,
               watchTimeSeconds := sumBy durOf ((wrappedRows db p).filter
                 (fun r => decide (hourOfDay r.t = i))),
               playCount := ((wrappedRows db p).filter
                 (fun r => decide (hourOfDay r.t = i))).length }) ∧
    ((getWrappedActivityPatterns db p).weekdayPatterns =
      [weekdayBucketSpec db p 0 1 ("Monday"),
       weekdayBucketSpec db p 1 2 ("Tuesday"),
       weekdayBucketSpec db p 2 3 ("Wednesday"),
       weekdayBucketSpec db p 3 4 ("Thursday"),
       weekdayBucketSpec db p 4 5 ("Friday"),
       weekdayBucketSpec db p 5 6 ("Saturday"),
       weekdayBucketSpec db p 6 0 ("Sunday")]) ∧
    (∀ i, i < 7 → WEEKDAY_NAMES[i]? = SUNDAY_FIRST_WEEKDAYS[(i + 1) % 7]?) ∧
    ((getWrappedActivityPatterns db p).monthlyTotals =
      [monthBucketSpec db p 1 ("January"), monthBucketSpec db p 2 ("February"),
       monthBucketSpec db p 3 ("March"), monthBucketSpec db p 4 ("April"),
       monthBucketSpec db p 5 ("May"), monthBucketSpec db p 6 ("June"),
       monthBucketSpec db p 7 ("July"), monthBucketSpec db p 8 ("August"),
       monthBucketSpec db p 9 ("September"), monthBucketSpec db p 10 ("October"),
       monthBucketSpec db p 11 ("November"),
       monthBucketSpec db p 12 ("December")]) := by
  refine ⟨⟨?_, fun i hi => activity_hourly_bucket db p i hi⟩,
    activity_weekday_closed db p, ?_, activity_monthly_closed db p⟩
  · rw [activity_hourly_eq]
    simp
  · intro i hi
    interval_cases i <;> rfl

/-- C7: each peak field of `getWrappedActivityPatterns` comes from a
bucket of its list with maximal watch time, and on ties the bucket
earliest in list order wins: the smallest hour, the smallest
Monday-first weekday index, the smallest month number. -/
theorem claim7_peak_buckets (db : DB) (p : WrappedParams) :
    (∃ hp ∈ (getWrappedActivityPatterns db p).hourlyPatterns,
      (getWrappedActivityPatterns db p).peakHour = hp.hour ∧
      (∀ o ∈ (getWrappedActivityPatterns db p).hourlyPatterns,
        o.watchTimeSeconds ≤ hp.watchTimeSeconds) ∧
      (∀ o ∈ (getWrappedActivityPatterns db p).hourlyPatterns,
        o.watchTimeSeconds = hp.watchTimeSeconds → hp.hour ≤ o.hour)) ∧
    (∃ w ∈ (getWrappedActivityPatterns db p).weekdayPatterns,
      (getWrappedActivityPatterns db p).peakWeekday = w.day ∧
      (∀ o ∈ (getWrappedActivityPatterns db p).weekdayPatterns,
        o.watchTimeSeconds ≤ w.watchTimeSeconds) ∧
      (∀ o ∈ (getWrappedActivityPatterns db p).weekdayPatterns,
        o.watchTimeSeconds = w.watchTimeSeconds → w.dayIndex ≤ o.dayIndex)) ∧
    (∃ m ∈ (getWrappedActivityPatterns db p).monthlyTotals,
      (getWrappedActivityPatterns db p).peakMonth = m.month ∧
      (∀ o ∈ (getWrappedActivityPatterns db p).monthlyTotals,
        o.watchTimeSeconds ≤ m.watchTimeSeconds) ∧
      (∀ o ∈ (getWrappedActivityPatterns db p).monthlyTotals,
        o.watchTimeSeconds = m.watchTimeSeconds → m.month ≤ o.month)) := by
  refine ⟨?_, ?_, ?_⟩
  · have hne : (getWrappedActivityPatterns db p).hourlyPatterns ≠ [] := by
      intro hc
      have := activity_hourly_length db p
      rw [hc] at this
      simp at this
    obtain ⟨hmem, hbound, hties⟩ := peak_spec (fun h => h.watchTimeSeconds)
      (fun h => h.hour) { hour := 0, watchTimeSeconds := 0, playCount := 0 }
      ((getWrappedActivityPatterns db p).hourlyPatterns) hne
      (activity_hourly_hours_lt db p)
    exact ⟨_, hmem, activity_peakHour_eq db p, hbound, hties⟩
  · have hclosed := activity_weekday_closed db p
    have hne : (getWrappedActivityPatterns db p).weekdayPatterns ≠ [] := by
      rw [hclosed]
      simp
    have hpw : (getWrappedActivityPatterns db p).weekdayPatterns.Pairwise
        (fun a b => a.dayIndex < b.dayIndex) := by
      rw [hclosed]
      simp [List.pairwise_cons, weekdayBucketSpec]
    obtain ⟨hmem, hbound, hties⟩ := peak_spec (fun w => w.watchTimeSeconds)
      (fun w => w.dayIndex)
      { day := "", dayIndex := 0, watchTimeSeconds := 0, playCount := 0 }
      ((getWrappedActivityPatterns db p).weekdayPatterns) hne hpw
    exact ⟨_, hmem, activity_peakWeekday_eq db p, hbound, hties⟩
  · have hclosed := activity_monthly_closed db p
    have hne : (getWrappedActivityPatterns db p).monthlyTotals ≠ [] := by
      rw [hclosed]
      simp
    have hpw : (getWrappedActivityPatterns db p).monthlyTotals.Pairwise
        (fun a b => a.month < b.month) := by
      rw [hclosed]
      simp [List.pairwise_cons, monthBucketSpec]
    obtain ⟨hmem, hbound, hties⟩ := peak_spec (fun m => m.watchTimeSeconds)
      (fun m => m.month)
      { month := 0, monthName := "", watchTimeSeconds := 0, playCount := 0 }
      ((getWrappedActivityPatterns db p).monthlyTotals) hne hpw
    exact ⟨_, hmem, activity_peakMonth_eq db p, hbound, hties⟩

/-- C1: for every database and parameters, `longestStreak` returned by
`getWrappedActivityPatterns` is the greatest length of a run of
consecutive calendar days each having at least one qualifying session;
in particular it is 0 when no day is active and 1 when some day is
active but no two active days are adjacent. -/
theorem claim1_longest_streak (db : DB) (p : WrappedParams) :
    IsGreatest {n | ∃ d, streakRun (dayHasSession db p) d n}
      ((getWrappedActivityPatterns db p).longestStreak) ∧
    ((∀ d, ¬dayHasSession db p d) →
      (getWrappedActivityPatterns db p).longestStreak = 0) ∧
    ((∃ d, dayHasSession db p d) →
      (∀ d, dayHasSession db p d → ¬dayHasSession db p (d + 1)) →
      (getWrappedActivityPatterns db p).longestStreak = 1) := by
  have hmemsd := activityDates_mem db p
  have hIG := longestStreakOf_isGreatest _ (activityDates_sorted db p)
  have hset : {n | ∃ d, streakRun
      (· ∈ sortBy natLeB
        ((groupsByKeyAsc (fun r => epochDay r.t) (wrappedRows db p)).map
          Prod.fst)) d n} =
      {n | ∃ d, streakRun (dayHasSession db p) d n} := by
    ext n
    simp only [Set.mem_setOf_eq]
    constructor
    · rintro ⟨d, h⟩
      exact ⟨d, fun k hk => (hmemsd _).mp (h k hk)⟩
    · rintro ⟨d, h⟩
      exact ⟨d, fun k hk => (hmemsd _).mpr (h k hk)⟩
  rw [hset] at hIG
  rw [activity_longestStreak_eq db p]
  refine ⟨hIG, ?_, ?_⟩
  · intro hno
    rcases hIG.1 with ⟨d, hrun⟩
    by_contra hne
    have h1 : 0 < longestStreakOf (sortBy natLeB
        ((groupsByKeyAsc (fun r => epochDay r.t) (wrappedRows db p)).map
          Prod.fst)) := Nat.pos_of_ne_zero hne
    have := hrun 0 h1
    rw [Nat.add_zero] at this
    exact hno d this
  · rintro ⟨d0, hd0⟩ hnadj
    have hmem1 : (1 : Nat) ∈ {n | ∃ d, streakRun (dayHasSession db p) d n} := by
      refine ⟨d0, ?_⟩
      intro k hk
      have hk0 : k = 0 := by omega
      subst hk0
      rw [Nat.add_zero]
      exact hd0
    have hge := hIG.2 hmem1
    have hle : longestStreakOf (sortBy natLeB
        ((groupsByKeyAsc (fun r => epochDay r.t) (wrappedRows db p)).map
          Prod.fst)) ≤ 1 := by
      by_contra hgt
      push_neg at hgt
      rcases hIG.1 with ⟨d, hrun⟩
      have ha0 := hrun 0 (by omega)
      have ha1 := hrun 1 (by omega)
      rw [Nat.add_zero] at ha0
      exact hnadj d ha0 ha1
    omega

/-- C10: the nextjs-app and job-server copies of `getInternalUrl` are
extensionally equal, and both return the internal url exactly when it is
a non-empty string, falling back to the external url when it is absent,
NULL or empty. -/
theorem claim10_internal_url (s : ServerUrlInfo) :
    NextjsApp.getInternalUrl s = JobServer.getInternalUrl s ∧
    (∀ u, s.internalUrl = some u → u ≠ "" → NextjsApp.getInternalUrl s = u) ∧
    ((s.internalUrl = none ∨ s.internalUrl = some ("")) →
      NextjsApp.getInternalUrl s = s.url) := by
  refine ⟨rfl, ?_, ?_⟩
  · intro u hu hne
    simp [NextjsApp.getInternalUrl, hu, hne]
  · rintro (h | h) <;> simp [NextjsApp.getInternalUrl, h]

/-- C8: `deleteInferredSessionForItem` returns the number of sessions
matching the given server, user, item with `isInferred = true`, removes
exactly those sessions (every other session keeps its multiplicity), and
leaves every other table unchanged. -/
theorem claim8_delete_inferred (db : DB) (serverId : Int)
    (userId itemId : String) :
    (deleteInferredSessionForItem db serverId userId itemId).1 =
      db.sessions.countP (fun s =>
        decide (s.serverId = serverId) && decide (s.userId = some userId) &&
          decide (s.itemId = some itemId) && s.isInferred) ∧
    (∀ s : Session,
      ((deleteInferredSessionForItem db serverId userId itemId).2).sessions.count s =
        if s.serverId = serverId ∧ s.userId = some userId ∧
            s.itemId = some itemId ∧ s.isInferred = true then 0
        else db.sessions.count s) ∧
    ((deleteInferredSessionForItem db serverId userId itemId).2).servers =
      db.servers ∧
    ((deleteInferredSessionForItem db serverId userId itemId).2).users =
      db.users ∧
    ((deleteInferredSessionForItem db serverId userId itemId).2).items =
      db.items ∧
    ((deleteInferredSessionForItem db serverId userId itemId).2).people =
      db.people ∧
    ((deleteInferredSessionForItem db serverId userId itemId).2).itemPeople =
      db.itemPeople := by
  refine ⟨(List.countP_eq_length_filter _ _).symm, ?_, rfl, rfl, rfl, rfl, rfl⟩
  intro s
  by_cases hcond : s.serverId = serverId ∧ s.userId = some userId ∧
      s.itemId = some itemId ∧ s.isInferred = true
  · rw [if_pos hcond]
    rw [List.count_eq_zero]
    intro hmem
    have := List.of_mem_filter hmem
    simp only [Bool.not_eq_true', Bool.and_eq_false_iff] at this
    simp only [decide_eq_false_iff_not] at this
    rcases hcond with ⟨h1, h2, h3, h4⟩
    rcases this with ((hc | hc) | hc) | hc
    · exact hc h1
    · exact hc h2
    · exact hc h3
    · rw [h4] at hc
      exact absurd hc (by simp)
  · rw [if_neg hcond]
    apply List.count_filter
    simp only [Bool.not_eq_true']
    rw [Bool.eq_false_iff]
    intro htrue
    simp only [Bool.and_eq_true, decide_eq_true_eq] at htrue
    exact hcond ⟨htrue.1.1.1, htrue.1.1.2, htrue.1.2, htrue.2⟩

/-- C9: `markItemWatched` never touches the database on a failed call
(success = false implies the database is returned unchanged), and each
of the documented failure conditions — no cookie session, server
mismatch, unknown server, missing token, non-ok media-server response, a
thrown fetch error — indeed produces success = false with the database
unchanged. -/
theorem claim9_mark_watched_failure (db : DB) (auth : Option AuthSession)
    (token : Option String) (fo : FetchOutcome) (now : Nat) (serverId : Int)
    (itemId : String) (watched : Bool) (inferWatchtime : Option Bool)
    (hfail : auth = none ∨
      (∃ a, auth = some a ∧ a.serverId ≠ serverId) ∨
      db.servers.find? (fun sv => decide (sv.id = serverId)) = none ∨
      token = none ∨
      (∃ st, fo = FetchOutcome.notOk st) ∨
      (∃ msg, fo = FetchOutcome.throws msg)) :
    (markItemWatched db auth token fo now serverId itemId watched
      inferWatchtime).1.success = false ∧
    (markItemWatched db auth token fo now serverId itemId watched
      inferWatchtime).2 = db := by
  rcases auth with _ | a
  · exact ⟨rfl, rfl⟩
  by_cases hms : a.serverId ≠ serverId
  · unfold markItemWatched
    simp [hms]
  rcases hfind : db.servers.find? (fun sv => decide (sv.id = serverId)) with _ | sv
  · unfold markItemWatched
    simp [hms, hfind]
  rcases token with _ | tok
  · unfold markItemWatched
    simp [hms, hfind]
  cases fo with
  | throws msg =>
    unfold markItemWatched
    simp [hms, hfind]
  | notOk st =>
    unfold markItemWatched
    simp [hms, hfind]
  | ok =>
    exfalso
    rcases hfail with h | h | h | h | h | h
    · exact Option.noConfusion h
    · rcases h with ⟨a2, ha2, hne⟩
      rw [Option.some.inj ha2] at hms
      exact hms hne
    · exact Option.noConfusion (h.symm.trans hfind)
    · exact Option.noConfusion h
    · rcases h with ⟨st, hst⟩
      exact FetchOutcome.noConfusion hst
    · rcases h with ⟨msg, hmsg⟩
      exact FetchOutcome.noConfusion hmsg

/-- C5: with an authenticated matching session, a known server, a token
and a successful media-server request, marking watched with watch-time
inference enabled appends exactly one synthesized session whose flags,
percent, equal start and end times and floor-divided play duration are
as documented; a missing item or falsy runtimeTicks inserts nothing, and
with watched = false or inference absent/false no call ever changes the
database. -/
theorem claim5_inferred_session (db : DB) (a : AuthSession) (tok : String)
    (now : Nat) (serverId : Int) (itemId : String)
    (hsrv : ¬a.serverId ≠ serverId)
    (hfound : db.servers.find? (fun sv => decide (sv.id = serverId)) ≠ none) :
    (∀ it ticks,
      db.items.find? (fun x => decide (x.id = itemId)) = some it →
      it.runtimeTicks = some ticks → ticks ≠ 0 →
      db.sessions.any (fun s => decide (s.id =
        "inferred:mark-watched:" ++ toString serverId ++ ":" ++ a.id ++ ":" ++
          itemId ++ ":" ++ toString now)) = false →
      ∃ ns : Session,
        (markItemWatched db (some a) (some tok) FetchOutcome.ok now serverId
          itemId true (some true)).2.sessions = db.sessions ++ [ns] ∧
        ns.isInferred = true ∧ ns.completed = true ∧ ns.percentComplete = 100 ∧
        ns.startTime = some now ∧ ns.endTime = some now ∧
        ns.startTime = ns.endTime ∧
        ns.playDuration = some (Int.floor ((ticks : ℚ) / 10000000))) ∧
    ((db.items.find? (fun x => decide (x.id = itemId)) = none ∨
      (∃ it, db.items.find? (fun x => decide (x.id = itemId)) = some it ∧
        (it.runtimeTicks = none ∨ it.runtimeTicks = some 0))) →
      (markItemWatched db (some a) (some tok) FetchOutcome.ok now serverId
        itemId true (some true)).2 = db) ∧
    (∀ (auth : Option AuthSession) (token : Option String) (fo : FetchOutcome)
      (watched : Bool) (inferWatchtime : Option Bool),
      (watched = false ∨ inferWatchtime = none ∨ inferWatchtime = some false) →
      (markItemWatched db auth token fo now serverId itemId watched
        inferWatchtime).2 = db) := by
  rcases hfound2 : db.servers.find? (fun sv => decide (sv.id = serverId)) with
    _ | sv
  · exact absurd hfound2 hfound
  have hres : (markItemWatched db (some a) (some tok) FetchOutcome.ok now
      serverId itemId true (some true)).2 =
      createInferredSessionForItem db serverId a.id a.name itemId now := by
    unfold markItemWatched
    simp [hsrv, hfound2]
  refine ⟨?_, ?_, ?_⟩
  · intro it ticks hit hticks htz hnoc
    rw [hres]
    unfold createInferredSessionForItem
    simp only [hit, hticks, if_neg htz, hnoc, Bool.false_eq_true, if_false]
    refine ⟨_, rfl, rfl, rfl, rfl, rfl, rfl, rfl, ?_⟩
    simp only
    congr 1
    have hfl := Rat.floor_intCast_div_natCast ticks 10000000
    rw [show (((10000000 : Nat) : ℤ)) = (10000000 : ℤ) by norm_num] at hfl
    rw [show (((10000000 : Nat) : ℚ)) = (10000000 : ℚ) by norm_num] at hfl
    rw [hfl]
  · intro hbad
    rw [hres]
    unfold createInferredSessionForItem
    rcases hbad with hnone | ⟨it, hit, hbad2⟩
    · simp only [hnone]
    · rcases hbad2 with h0 | h0 <;> simp [hit, h0]
  · intro auth token fo watched inferWatchtime hno
    have hguard : (watched && inferWatchtime.getD false) = false := by
      rcases hno with h | h | h <;> rw [h] <;> simp
    rcases auth with _ | a2
    · rfl
    by_cases hms : a2.serverId ≠ serverId
    · unfold markItemWatched
      simp [hms]
    rcases hfind : db.servers.find? (fun sv => decide (sv.id = serverId)) with
      _ | sv2
    · unfold markItemWatched
      simp [hms, hfind]
    rcases token with _ | tok2
    · unfold markItemWatched
      simp [hms, hfind]
    cases fo with
    | throws msg =>
      unfold markItemWatched
      simp [hms, hfind]
    | notOk st =>
      unfold markItemWatched
      simp [hms, hfind]
    | ok =>
      unfold markItemWatched
      simp [hms, hfind, hguard]

/-- Witness for C9 at a concrete input: a call with no cookie session
fails and leaves the concrete database unchanged. -/
theorem claim9_mark_watched_failure_witness :
    ((none : Option AuthSession) = none ∨
      (∃ a, (none : Option AuthSession) = some a ∧ a.serverId ≠ (1 : Int)) ∨
      exDb.servers.find? (fun sv => decide (sv.id = (1 : Int))) = none ∨
      (none : Option String) = none ∨
      (∃ st, FetchOutcome.ok = FetchOutcome.notOk st) ∨
      (∃ msg, FetchOutcome.ok = FetchOutcome.throws msg)) ∧
    ((markItemWatched exDb none none FetchOutcome.ok 0 1 ("A") true
      none).1.success = false ∧
     (markItemWatched exDb none none FetchOutcome.ok 0 1 ("A") true
      none).2 = exDb) :=
  ⟨Or.inl rfl,
   claim9_mark_watched_failure exDb none none FetchOutcome.ok 0 1 ("A") true
     none (Or.inl rfl)⟩

/-- Witness for C5 at a concrete input: item A has 12000000000 runtime
ticks, so the inferred session lasts 1200 seconds. -/
theorem claim5_inferred_session_witness :
    (¬exAuth.serverId ≠ (1 : Int)) ∧
    exDb.servers.find? (fun sv => decide (sv.id = (1 : Int))) ≠ none ∧
    exDb.items.find? (fun x => decide (x.id = ("A" : String))) = some exItem ∧
    exItem.runtimeTicks = some 12000000000 ∧
    (∃ ns : Session,
      (markItemWatched exDb (some exAuth) (some ("tok")) FetchOutcome.ok exTime
        1 ("A") true (some true)).2.sessions = exDb.sessions ++ [ns] ∧
      ns.isInferred = true ∧ ns.completed = true ∧ ns.percentComplete = 100 ∧
      ns.startTime = some exTime ∧ ns.endTime = some exTime ∧
      ns.startTime = ns.endTime ∧
      ns.playDuration =
        some (Int.floor (((12000000000 : Int) : ℚ) / 10000000))) :=
  ⟨by decide, by decide, by decide, by decide,
   (claim5_inferred_session exDb exAuth ("tok") exTime 1 ("A") (by decide)
       (by decide)).1 exItem 12000000000 (by decide) (by decide) (by decide)
     (by decide)⟩

/-! # Lemmas: ORDER BY measure DESC with a key tiebreak -/

theorem descLex_total [LinearOrder β] (f : α → β) (key : α → κ)
    (kle : κ → κ → Bool) (hktot : ∀ x y, kle x y = true ∨ kle y x = true)
    (a b : α) :
    (decide (f b < f a) || (decide (f a = f b) && kle (key a) (key b))) = true ∨
    (decide (f a < f b) || (decide (f b = f a) && kle (key b) (key a))) = true := by
  rcases lt_trichotomy (f a) (f b) with h | h | h
  · right
    simp [h]
  · rcases hktot (key a) (key b) with hk | hk
    · left
      simp [h, hk]
    · right
      simp [h.symm, hk]
  · left
    simp [h]

theorem descLex_trans [LinearOrder β] (f : α → β) (key : α → κ)
    (kle : κ → κ → Bool)
    (hktr : ∀ x y z, kle x y = true → kle y z = true → kle x z = true)
    (a b c : α)
    (hab : (decide (f b < f a) ||
      (decide (f a = f b) && kle (key a) (key b))) = true)
    (hbc : (decide (f c < f b) ||
      (decide (f b = f c) && kle (key b) (key c))) = true) :
    (decide (f c < f a) || (decide (f a = f c) && kle (key a) (key c))) = true := by
  simp only [Bool.or_eq_true, Bool.and_eq_true, decide_eq_true_eq] at hab hbc ⊢
  rcases hab with h1 | ⟨h1, hk1⟩
  · rcases hbc with h2 | ⟨h2, hk2⟩
    · left
      exact lt_trans h2 h1
    · left
      rw [← h2]
      exact h1
  · rcases hbc with h2 | ⟨h2, hk2⟩
    · left
      rw [h1]
      exact h2
    · right
      exact ⟨h1.trans h2, hktr _ _ _ hk1 hk2⟩

theorem descLex_antisymm [LinearOrder β] (f : α → β) (key : α → κ)
    (kle : κ → κ → Bool)
    (hkanti : ∀ x y, kle x y = true → kle y x = true → x = y)
    (a b : α)
    (hab : (decide (f b < f a) ||
      (decide (f a = f b) && kle (key a) (key b))) = true)
    (hba : (decide (f a < f b) ||
      (decide (f b = f a) && kle (key b) (key a))) = true) :
    f a = f b ∧ key a = key b := by
  simp only [Bool.or_eq_true, Bool.and_eq_true, decide_eq_true_eq] at hab hba
  rcases hab with h1 | ⟨h1, hk1⟩
  · rcases hba with h2 | ⟨h2, hk2⟩
    · exact absurd h1 (lt_asymm h2)
    · exact absurd h1 (by rw [h2]; exact lt_irrefl _)
  · rcases hba with h2 | ⟨h2, hk2⟩
    · exact absurd h2 (by rw [h1]; exact lt_irrefl _)
    · exact ⟨h1, hkanti _ _ hk1 hk2⟩

/-! # Lemmas: the rewatch pipeline -/

theorem rewatch_top_eq (db : DB) (p : WrappedParams) :
    (getWrappedRewatchStats db p).topRewatchedItems =
      ((rewatchOrdered db p).map rewatchRecOf).take 5 := rfl

theorem rewatch_total_eq (db : DB) (p : WrappedParams) :
    (getWrappedRewatchStats db p).totalRewatches =
      (((rewatchOrdered db p).map rewatchRecOf).map
        (fun it => it.playCount - 1)).sum := rfl

theorem rewatch_most_eq (db : DB) (p : WrappedParams) :
    (getWrappedRewatchStats db p).mostRewatchedItem =
      ((rewatchOrdered db p).map rewatchRecOf).head?.map (fun it2 =>
        { itemId := it2.itemId, itemName := it2.itemName,
          itemType := it2.itemType, rewatchCount := it2.playCount - 1,
          primaryImageTag := it2.primaryImageTag, seriesName := it2.seriesName,
          productionYear := it2.productionYear }) := rfl

theorem rewatch_pct_eq (db : DB) (p : WrappedParams) :
    (getWrappedRewatchStats db p).rewatchPercentage =
      (if 0 < (wrappedRows db p).length then
        jsRoundDiv (100 * (((((rewatchOrdered db p).map rewatchRecOf).map
            (fun it => it.playCount - 1)).sum : Nat) : Int))
          ((wrappedRows db p).length : Int)
      else 0) := rfl

theorem rewatchOrdered_mem (db : DB) (p : WrappedParams)
    {g : RKey × List SIRow} :
    g ∈ rewatchOrdered db p ↔
      (∃ r ∈ wrappedRows db p, rkeyOf r = g.1) ∧
      g.2 = (wrappedRows db p).filter (fun r => decide (rkeyOf r = g.1)) ∧
      1 < g.2.length := by
  unfold rewatchOrdered
  rw [mem_sortBy, List.mem_filter, mem_groupsBy_iff]
  simp only [decide_eq_true_eq]
  tauto

theorem rewatchOrdered_pairwise (db : DB) (p : WrappedParams) :
    (rewatchOrdered db p).Pairwise (fun g1 g2 => g2.2.length ≤ g1.2.length) := by
  have h := @sortBy_pairwise (RKey × List SIRow)
    (fun g1 g2 =>
      decide (g2.2.length < g1.2.length) ||
        (decide (g1.2.length = g2.2.length) && rkeyLe g1.1 g2.1))
    (fun a b => descLex_total (fun g => g.2.length) Prod.fst rkeyLe
      rkeyLe_isLinOrd.total a b)
    (fun a b c hab hbc => descLex_trans (fun g => g.2.length) Prod.fst rkeyLe
      rkeyLe_isLinOrd.trans a b c hab hbc)
    ((groupsBy rkeyOf (wrappedRows db p)).filter (fun g => decide (1 < g.2.length)))
  refine h.imp ?_
  intro a b hab
  simp only [Bool.or_eq_true, Bool.and_eq_true, decide_eq_true_eq] at hab
  rcases hab with h1 | ⟨h1, _⟩
  · exact le_of_lt h1
  · exact le_of_eq h1.symm

theorem rkeyCount_eq_filter_length (db : DB) (p : WrappedParams) (k : RKey) :
    rkeyCount db p k =
      ((wrappedRows db p).filter (fun r => decide (rkeyOf r = k))).length :=
  List.countP_eq_length_filter _ _

theorem rkey_group_mem (db : DB) (p : WrappedParams) (k : RKey)
    (hk : 1 < rkeyCount db p k) :
    ((k, (wrappedRows db p).filter (fun r => decide (rkeyOf r = k))) :
        RKey × List SIRow) ∈ rewatchOrdered db p := by
  rw [rewatchOrdered_mem]
  refine ⟨?_, rfl, ?_⟩
  · have hpos : 0 < (wrappedRows db p).countP (fun r => decide (rkeyOf r = k)) := by
      have h2 := hk
      unfold rkeyCount at h2
      omega
    rw [List.countP_pos_iff] at hpos
    obtain ⟨r, hr, hrk⟩ := hpos
    exact ⟨r, hr, of_decide_eq_true hrk⟩
  · show 1 < ((wrappedRows db p).filter (fun r => decide (rkeyOf r = k))).length
    rw [← rkeyCount_eq_filter_length]
    exact hk

/-- C4: `getWrappedRewatchStats` treats as rewatched exactly the grouped
keys with more than one qualifying session in the wrapped year:
`totalRewatches` is the sum, over the distinct keys with count > 1, of
(count - 1); `rewatchPercentage` is round(100 * totalRewatches / totalPlays)
when totalPlays > 0 and 0 when totalPlays = 0; `mostRewatchedItem` is `none`
when every key has at most one play, and otherwise an item of maximal play
count with `rewatchCount` = playCount - 1; `topRewatchedItems` lists at
most 5 items, in descending play-count order, each with more than one play
and with `playCount` equal to the number of qualifying sessions carrying
its key. -/
theorem claim4_rewatch_stats (db : DB) (p : WrappedParams) :
    (getWrappedRewatchStats db p).totalRewatches =
      (((((wrappedRows db p).map rkeyOf).dedup).filter
          (fun k => decide (1 < rkeyCount db p k))).map
        (fun k => rkeyCount db p k - 1)).sum ∧
    (0 < (wrappedRows db p).length →
      (getWrappedRewatchStats db p).rewatchPercentage =
        Int.floor ((100 * ((getWrappedRewatchStats db p).totalRewatches : ℚ)) /
            ((wrappedRows db p).length : ℚ) + 1 / 2)) ∧
    ((wrappedRows db p).length = 0 →
      (getWrappedRewatchStats db p).rewatchPercentage = 0) ∧
    ((∀ k : RKey, rkeyCount db p k ≤ 1) →
      (getWrappedRewatchStats db p).mostRewatchedItem = none) ∧
    (∀ k0 : RKey, 1 < rkeyCount db p k0 →
      ∃ m : MostRewatched,
        (getWrappedRewatchStats db p).mostRewatchedItem = some m ∧
        1 ≤ m.rewatchCount ∧
        rkeyCount db p (m.itemId, m.itemName, m.itemType, m.primaryImageTag,
          m.seriesName, m.productionYear) = m.rewatchCount + 1 ∧
        (∀ k : RKey, rkeyCount db p k ≤ m.rewatchCount + 1)) ∧
    (getWrappedRewatchStats db p).topRewatchedItems.length ≤ 5 ∧
    (getWrappedRewatchStats db p).topRewatchedItems.Pairwise
      (fun a b => b.playCount ≤ a.playCount) ∧
    (∀ it ∈ (getWrappedRewatchStats db p).topRewatchedItems,
      1 < it.playCount ∧ rkeyCount db p (rkeyOfRec it) = it.playCount) := by
  refine ⟨?_, ?_, ?_, ?_, ?_, ?_, ?_, ?_⟩
  · rw [rewatch_total_eq, List.map_map]
    have h1 : ((fun it : RewatchItem => it.playCount - 1) ∘ rewatchRecOf) =
        (fun g : RKey × List SIRow => g.2.length - 1) := rfl
    rw [h1]
    unfold rewatchOrdered
    rw [List.Perm.sum_eq ((sortBy_perm _ _).map _)]
    unfold groupsBy
    rw [List.filter_map, List.map_map]
    have hfil : ∀ x ∈ (((wrappedRows db p).map rkeyOf)).dedup,
        ((fun g : RKey × List SIRow => decide (1 < g.2.length)) ∘
          (fun k => (k, (wrappedRows db p).filter
            (fun a => decide (rkeyOf a = k))))) x =
        (fun k => decide (1 < rkeyCount db p k)) x := by
      intro x hx
      simp only [Function.comp]
      rw [← rkeyCount_eq_filter_length]
    rw [List.filter_congr hfil]
    refine congrArg List.sum (List.map_congr_left ?_)
    intro k hk
    simp only [Function.comp]
    rw [← rkeyCount_eq_filter_length]
  · intro hl
    rw [rewatch_pct_eq, if_pos hl, ← rewatch_total_eq]
    have hb : (0 : Int) < ((wrappedRows db p).length : Int) := by exact_mod_cast hl
    rw [jsRoundDiv_eq_floor _ _ hb]
    congr 1
    push_cast
    ring
  · intro hl
    rw [rewatch_pct_eq, hl]
    simp
  · intro hk
    rw [rewatch_most_eq]
    have hnil : rewatchOrdered db p = [] := by
      rw [List.eq_nil_iff_forall_not_mem]
      intro g hg
      rw [rewatchOrdered_mem] at hg
      obtain ⟨-, hfil, hlen⟩ := hg
      have h2 := hk g.1
      rw [rkeyCount_eq_filter_length] at h2
      rw [hfil] at hlen
      omega
    rw [hnil]
    rfl
  · intro k0 hk0
    have hg0 := rkey_group_mem db p k0 hk0
    rcases hord : rewatchOrdered db p with _ | ⟨g0, rest⟩
    · rw [hord] at hg0
      exact absurd hg0 (List.not_mem_nil _)
    · have hg0mem : g0 ∈ rewatchOrdered db p := by
        rw [hord]
        exact List.mem_cons_self _ _
      obtain ⟨-, hfil0, hlen0⟩ := (rewatchOrdered_mem db p).mp hg0mem
      have hpair := rewatchOrdered_pairwise db p
      rw [hord] at hpair
      have hmax : ∀ g ∈ rest, g.2.length ≤ g0.2.length :=
        fun g hg => (List.pairwise_cons.mp hpair).1 g hg
      refine ⟨⟨g0.1.1, g0.1.2.1, g0.1.2.2.1, g0.2.length - 1,
          g0.1.2.2.2.1, g0.1.2.2.2.2.1, g0.1.2.2.2.2.2⟩, ?_, ?_, ?_, ?_⟩
      · rw [rewatch_most_eq, hord]
        rfl
      · show 1 ≤ g0.2.length - 1
        omega
      · show rkeyCount db p (g0.1.1, g0.1.2.1, g0.1.2.2.1, g0.1.2.2.2.1,
          g0.1.2.2.2.2.1, g0.1.2.2.2.2.2) = g0.2.length - 1 + 1
        have hkeq : ((g0.1.1, g0.1.2.1, g0.1.2.2.1, g0.1.2.2.2.1,
            g0.1.2.2.2.2.1, g0.1.2.2.2.2.2) : RKey) = g0.1 := rfl
        rw [hkeq, rkeyCount_eq_filter_length, ← hfil0]
        omega
      · intro k
        show rkeyCount db p k ≤ g0.2.length - 1 + 1
        by_cases hk1 : 1 < rkeyCount db p k
        · have hmem := rkey_group_mem db p k hk1
          rw [hord] at hmem
          rcases List.mem_cons.mp hmem with heq | hmemrest
          · have h2 : ((wrappedRows db p).filter
                (fun r => decide (rkeyOf r = k))).length = g0.2.length :=
              congrArg (fun g : RKey × List SIRow => g.2.length) heq
            rw [rkeyCount_eq_filter_length]
            omega
          · have h2 : ((wrappedRows db p).filter
                (fun r => decide (rkeyOf r = k))).length ≤ g0.2.length :=
              hmax _ hmemrest
            rw [rkeyCount_eq_filter_length]
            omega
        · push_neg at hk1
          omega
  · rw [rewatch_top_eq, List.length_take]
    exact min_le_left _ _
  · rw [rewatch_top_eq]
    refine List.Pairwise.sublist (List.take_sublist _ _) ?_
    rw [List.pairwise_map]
    refine (rewatchOrdered_pairwise db p).imp ?_
    intro a b hab
    exact hab
  · intro it hit
    rw [rewatch_top_eq] at hit
    have hit2 := List.mem_of_mem_take hit
    rw [List.mem_map] at hit2
    obtain ⟨g, hg, rfl⟩ := hit2
    obtain ⟨-, hfil, hlen⟩ := (rewatchOrdered_mem db p).mp hg
    refine ⟨hlen, ?_⟩
    show rkeyCount db p (rkeyOfRec (rewatchRecOf g)) = (rewatchRecOf g).playCount
    have hkeq : rkeyOfRec (rewatchRecOf g) = g.1 := rfl
    rw [hkeq, rkeyCount_eq_filter_length, ← hfil]
    exact rfl

/-! # Lemmas: the genre-percentile pipeline -/

theorem sortBy_eq_nil {le : α → α → Bool} {l : List α} :
    sortBy le l = [] ↔ l = [] := by
  constructor
  · intro h
    have hlen := (sortBy_perm le l).length_eq
    rw [h] at hlen
    exact List.length_eq_zero.mp hlen.symm
  · intro h
    rw [h]
    rfl

theorem groupsBy_eq_nil [DecidableEq κ] {key : α → κ} {l : List α} :
    groupsBy key l = [] ↔ l = [] := by
  unfold groupsBy
  rw [List.map_eq_nil_iff, List.dedup_eq_nil, List.map_eq_nil_iff]

theorem percentiles_eq (db : DB) (p : WrappedParams) :
    getWrappedGenrePercentiles db p =
      (if (userGenreStatsOf db p).isEmpty then []
      else ((userGenreStatsOf db p).take 5).map (percEntry db p)) := rfl

theorem percEntry_genre (db : DB) (p : WrappedParams) (ug : String × Int) :
    (percEntry db p ug).genre = ug.1 := rfl

theorem percEntry_utime (db : DB) (p : WrappedParams) (ug : String × Int) :
    (percEntry db p ug).userWatchTimeSeconds = ug.2 := rfl

theorem percEntry_pct (db : DB) (p : WrappedParams) (ug : String × Int) :
    (percEntry db p ug).percentile =
      (if 0 < (genreCohortTimes db p ug.1).length then
        jsRoundDiv (100 * ((genreCohortTimes db p ug.1).countP
            (fun w => decide (w < ug.2)) : Int))
          (genreCohortTimes db p ug.1).length
      else 0) := rfl

theorem percEntry_avg (db : DB) (p : WrappedParams) (ug : String × Int) :
    (percEntry db p ug).serverAverageSeconds =
      (if 0 < (genreCohortTimes db p ug.1).length then
        jsRoundDiv (genreCohortTimes db p ug.1).sum
          (genreCohortTimes db p ug.1).length
      else 0) := rfl

theorem percEntry_top (db : DB) (p : WrappedParams) (ug : String × Int) :
    (percEntry db p ug).isTopGenreForUser =
      decide ((userGenreStatsOf db p).head?.map Prod.fst = some ug.1) := rfl

theorem userGenreStats_pairwise (db : DB) (p : WrappedParams) :
    (userGenreStatsOf db p).Pairwise (fun a b => b.2 ≤ a.2) := by
  have h := @sortBy_pairwise (String × Int)
    (fun a b =>
      decide (b.2 < a.2) || (decide (a.2 = b.2) && strLe a.1 b.1))
    (fun a b => descLex_total (fun g : String × Int => g.2) Prod.fst strLe
      strLe_isLinOrd.total a b)
    (fun a b c hab hbc => descLex_trans (fun g : String × Int => g.2) Prod.fst
      strLe strLe_isLinOrd.trans a b c hab hbc)
    ((groupsBy Prod.fst (percentileUserGenreRows db p)).map
      (fun g => (g.1, sumBy (fun pr => durOf pr.2) g.2)))
  refine h.imp ?_
  intro a b hab
  simp only [Bool.or_eq_true, Bool.and_eq_true, decide_eq_true_eq] at hab
  rcases hab with h1 | ⟨h1, _⟩
  · exact le_of_lt h1
  · exact le_of_eq h1.symm

theorem userGenreStats_fst_nodup (db : DB) (p : WrappedParams) :
    ((userGenreStatsOf db p).map Prod.fst).Nodup := by
  have hperm : ((userGenreStatsOf db p).map Prod.fst).Perm
      (((groupsBy Prod.fst (percentileUserGenreRows db p)).map
        (fun g => (g.1, sumBy (fun pr => durOf pr.2) g.2))).map Prod.fst) :=
    (sortBy_perm _ _).map _
  refine hperm.symm.nodup ?_
  rw [List.map_map]
  have hc : (Prod.fst ∘ fun g : String × List (String × SIRow) =>
      ((g.1, sumBy (fun pr => durOf pr.2) g.2) : String × Int)) = Prod.fst := rfl
  rw [hc]
  exact groupsBy_keys_nodup _ _

theorem mem_userGenreStats (db : DB) (p : WrappedParams) (gt : String × Int) :
    gt ∈ userGenreStatsOf db p ↔
      ((∃ r ∈ percentileUserGenreRows db p, r.1 = gt.1) ∧
        gt.2 = sumBy (fun pr => durOf pr.2)
          ((percentileUserGenreRows db p).filter
            (fun r => decide (r.1 = gt.1)))) := by
  unfold userGenreStatsOf
  rw [mem_sortBy, List.mem_map]
  constructor
  · rintro ⟨g, hg, hmk⟩
    rcases mem_groupsBy_iff.mp hg with ⟨⟨a, ha, hak⟩, hsnd⟩
    have h1 : gt.1 = g.1 := by rw [← hmk]
    have h2 : gt.2 = sumBy (fun pr => durOf pr.2) g.2 := by rw [← hmk]
    refine ⟨⟨a, ha, ?_⟩, ?_⟩
    · rw [h1]
      exact hak
    · rw [h2, hsnd, h1]
  · rintro ⟨⟨r, hr, hrk⟩, hsum⟩
    refine ⟨(gt.1, (percentileUserGenreRows db p).filter
        (fun a => decide (a.1 = gt.1))), ?_, ?_⟩
    · apply mem_groupsBy_iff.mpr
      exact ⟨⟨r, hr, hrk⟩, rfl⟩
    · exact Prod.ext rfl hsum.symm

/-- C2: for each of the requester's top-5 genres by yearly watch time,
`getWrappedGenrePercentiles` reports the requester's total, the percentile
round(100 * (cohort totals strictly below the requester's) / (number of
cohort totals of the genre)), and the rounded arithmetic mean of the
cohort totals of the genre; `isTopGenreForUser` is set on exactly one
entry, an entry of maximal requester watch time (the unique strictly top
genre when there is one); the result is empty exactly when the requester
has no genre activity in the year. -/
theorem claim2_genre_percentiles (db : DB) (p : WrappedParams) :
    (getWrappedGenrePercentiles db p = [] ↔ userGenreStatsOf db p = []) ∧
    (userGenreStatsOf db p = [] ↔ percentileUserGenreRows db p = []) ∧
    ((getWrappedGenrePercentiles db p).map
        (fun e => (e.genre, e.userWatchTimeSeconds)) =
      (userGenreStatsOf db p).take 5) ∧
    (userGenreStatsOf db p).Pairwise (fun a b => b.2 ≤ a.2) ∧
    (∀ gt : String × Int, gt ∈ userGenreStatsOf db p ↔
      ((∃ r ∈ percentileUserGenreRows db p, r.1 = gt.1) ∧
        gt.2 = sumBy (fun pr => durOf pr.2)
          ((percentileUserGenreRows db p).filter
            (fun r => decide (r.1 = gt.1))))) ∧
    (∀ e ∈ getWrappedGenrePercentiles db p,
      e.percentile =
        (if 0 < (genreCohortTotals db p e.genre).length then
          Int.floor ((100 * ((genreCohortTotals db p e.genre).countP
              (fun w => decide (w < e.userWatchTimeSeconds)) : ℚ)) /
            ((genreCohortTotals db p e.genre).length : ℚ) + 1 / 2)
        else 0) ∧
      e.serverAverageSeconds =
        (if 0 < (genreCohortTotals db p e.genre).length then
          Int.floor (((genreCohortTotals db p e.genre).sum : ℚ) /
            ((genreCohortTotals db p e.genre).length : ℚ) + 1 / 2)
        else 0)) ∧
    (userGenreStatsOf db p ≠ [] →
      ((getWrappedGenrePercentiles db p).countP
        (fun e => e.isTopGenreForUser)) = 1) ∧
    (∀ e ∈ getWrappedGenrePercentiles db p, e.isTopGenreForUser = true →
      ∀ gt ∈ userGenreStatsOf db p, gt.2 ≤ e.userWatchTimeSeconds) ∧
    (∀ g : String, ∀ t : Int, (g, t) ∈ userGenreStatsOf db p →
      (∀ gt ∈ userGenreStatsOf db p, gt.1 ≠ g → gt.2 < t) →
      ∀ e ∈ getWrappedGenrePercentiles db p, e.isTopGenreForUser = true →
        e.genre = g) := by
  refine ⟨?_, ?_, ?_, userGenreStats_pairwise db p,
    fun gt => mem_userGenreStats db p gt, ?_, ?_, ?_, ?_⟩
  · rw [percentiles_eq]
    by_cases hs : (userGenreStatsOf db p).isEmpty
    · rw [if_pos hs]
      simp [List.isEmpty_iff.mp hs]
    · rw [if_neg hs]
      have hne : userGenreStatsOf db p ≠ [] := fun h =>
        hs (List.isEmpty_iff.mpr h)
      constructor
      · intro hmapnil
        rw [List.map_eq_nil_iff, List.take_eq_nil_iff] at hmapnil
        rcases hmapnil with h5 | hnil
        · exact absurd h5 (by decide)
        · exact absurd hnil hne
      · intro h
        exact absurd h hne
  · unfold userGenreStatsOf
    rw [sortBy_eq_nil, List.map_eq_nil_iff, groupsBy_eq_nil]
  · rw [percentiles_eq]
    by_cases hs : (userGenreStatsOf db p).isEmpty
    · rw [if_pos hs, List.isEmpty_iff.mp hs]
      rfl
    · rw [if_neg hs, List.map_map]
      have hc : ((fun e : GenrePercentile =>
          (e.genre, e.userWatchTimeSeconds)) ∘ percEntry db p) =
          (fun ug : String × Int => ug) := rfl
      rw [hc]
      exact List.map_id' _
  · intro e he
    rw [percentiles_eq] at he
    by_cases hs : (userGenreStatsOf db p).isEmpty
    · rw [if_pos hs] at he
      exact absurd he (List.not_mem_nil _)
    · rw [if_neg hs] at he
      rcases List.mem_map.mp he with ⟨ug, hug, rfl⟩
      have hlen : (genreCohortTimes db p ug.1).length =
          (genreCohortTotals db p ug.1).length :=
        (sortBy_perm _ _).length_eq
      have hcnt : (genreCohortTimes db p ug.1).countP
            (fun w => decide (w < ug.2)) =
          (genreCohortTotals db p ug.1).countP
            (fun w => decide (w < ug.2)) :=
        (sortBy_perm _ _).countP_eq _
      have hsum : (genreCohortTimes db p ug.1).sum =
          (genreCohortTotals db p ug.1).sum :=
        (sortBy_perm _ _).sum_eq
      constructor
      · rw [percEntry_genre, percEntry_utime, percEntry_pct, hlen, hcnt]
        by_cases hpos : 0 < (genreCohortTotals db p ug.1).length
        · rw [if_pos hpos, if_pos hpos,
            jsRoundDiv_eq_floor _ _ (by exact_mod_cast hpos)]
          congr 1
          push_cast
          ring
        · rw [if_neg hpos, if_neg hpos]
      · rw [percEntry_genre, percEntry_avg, hlen, hsum]
        by_cases hpos : 0 < (genreCohortTotals db p ug.1).length
        · rw [if_pos hpos, if_pos hpos,
            jsRoundDiv_eq_floor _ _ (by exact_mod_cast hpos)]
          congr 1
        · rw [if_neg hpos, if_neg hpos]
  · intro hne
    rw [percentiles_eq,
      if_neg (fun hs => hne (List.isEmpty_iff.mp hs))]
    rcases List.exists_cons_of_ne_nil hne with ⟨x, xs, hcons⟩
    have hx : (percEntry db p x).isTopGenreForUser = true := by
      rw [percEntry_top, hcons]
      simp
    have hzero : ((List.take 4 xs).map (percEntry db p)).countP
        (fun e => e.isTopGenreForUser) = 0 := by
      rw [List.countP_eq_zero]
      intro a ha
      rcases List.mem_map.mp ha with ⟨ug, hug, rfl⟩
      intro hcontra
      have hcontra2 : (percEntry db p ug).isTopGenreForUser = true := hcontra
      rw [percEntry_top, hcons] at hcontra2
      simp only [List.head?_cons, Option.map_some', decide_eq_true_eq,
        Option.some.injEq] at hcontra2
      have hnod := userGenreStats_fst_nodup db p
      rw [hcons, List.map_cons] at hnod
      have hxnot := (List.nodup_cons.mp hnod).1
      have hmem : ug.1 ∈ xs.map Prod.fst :=
        List.mem_map.mpr ⟨ug, List.mem_of_mem_take hug, rfl⟩
      exact hxnot (hcontra2 ▸ hmem)
    rw [hcons, show (5 : Nat) = 4 + 1 from rfl, List.take_succ_cons,
      List.map_cons, List.countP_cons, hzero]
    have hx2 : ((fun e : GenrePercentile => e.isTopGenreForUser)
        (percEntry db p x)) = true := hx
    rw [if_pos hx2]
  · intro e he hflag gt hgt
    rw [percentiles_eq] at he
    by_cases hs : (userGenreStatsOf db p).isEmpty
    · rw [if_pos hs] at he
      exact absurd he (List.not_mem_nil _)
    · rw [if_neg hs] at he
      rcases List.mem_map.mp he with ⟨ug, hug, rfl⟩
      have hug2 : ug ∈ userGenreStatsOf db p := List.mem_of_mem_take hug
      have hflag2 : (percEntry db p ug).isTopGenreForUser = true := hflag
      rw [percEntry_top] at hflag2
      have hne : userGenreStatsOf db p ≠ [] := fun h =>
        hs (List.isEmpty_iff.mpr h)
      rcases List.exists_cons_of_ne_nil hne with ⟨x, xs, hcons⟩
      rw [hcons] at hflag2
      simp only [List.head?_cons, Option.map_some', decide_eq_true_eq,
        Option.some.injEq] at hflag2
      have hxmem : x ∈ userGenreStatsOf db p := by
        rw [hcons]
        exact List.mem_cons_self _ _
      have hxeq : x = ug :=
        List.inj_on_of_nodup_map (userGenreStats_fst_nodup db p) hxmem hug2
          hflag2
      rw [percEntry_utime]
      have hpair := userGenreStats_pairwise db p
      rw [hcons] at hpair
      rw [hcons] at hgt
      rcases List.mem_cons.mp hgt with heq | hgt2
      · rw [heq, ← hxeq]
      · have h2 : gt.2 ≤ x.2 := (List.pairwise_cons.mp hpair).1 gt hgt2
        rw [← hxeq]
        exact h2
  · intro g t hmem hstrict e he hflag
    rw [percentiles_eq] at he
    by_cases hs : (userGenreStatsOf db p).isEmpty
    · rw [if_pos hs] at he
      exact absurd he (List.not_mem_nil _)
    · rw [if_neg hs] at he
      rcases List.mem_map.mp he with ⟨ug, hug, rfl⟩
      have hflag2 : (percEntry db p ug).isTopGenreForUser = true := hflag
      rw [percEntry_top] at hflag2
      have hne : userGenreStatsOf db p ≠ [] := fun h =>
        hs (List.isEmpty_iff.mpr h)
      rcases List.exists_cons_of_ne_nil hne with ⟨x, xs, hcons⟩
      rw [hcons] at hflag2
      simp only [List.head?_cons, Option.map_some', decide_eq_true_eq,
        Option.some.injEq] at hflag2
      rw [percEntry_genre, ← hflag2]
      by_contra hxg
      have hxmem : x ∈ userGenreStatsOf db p := by
        rw [hcons]
        exact List.mem_cons_self _ _
      have hlt : x.2 < t := hstrict x hxmem hxg
      have hpair := userGenreStats_pairwise db p
      rw [hcons] at hpair
      rw [hcons] at hmem
      rcases List.mem_cons.mp hmem with heq | hmem2
      · refine hxg ?_
        rw [← heq]
      · have hle : t ≤ x.2 := (List.pairwise_cons.mp hpair).1 (g, t) hmem2
        omega

/-! # Lemmas: exclusion invariance -/

theorem map_filter_eq_filter_map {f : α → β} {p : α → Bool} {q : β → Bool}
    (l : List α) (h : ∀ a ∈ l, p a = q (f a)) :
    (l.filter p).map f = (l.map f).filter q := by
  induction l with
  | nil => rfl
  | cons a t ih =>
    have ih2 := ih (fun x hx => h x (List.mem_cons_of_mem _ hx))
    have ha := h a (List.mem_cons_self a t)
    by_cases hp : p a = true
    · have hq : q (f a) = true := ha ▸ hp
      rw [List.filter_cons_of_pos hp, List.map_cons, List.map_cons,
        List.filter_cons_of_pos hq, ih2]
    · have hq : ¬q (f a) = true := fun hq2 => hp (ha.symm ▸ hq2)
      rw [List.filter_cons_of_neg hp, List.map_cons,
        List.filter_cons_of_neg hq, ih2]

theorem find?_items_of_mem (db : DB)
    (hnodup : (db.items.map (fun it => it.id)).Nodup)
    {it : Item} (hmem : it ∈ db.items) :
    db.items.find? (fun x => decide (x.id = it.id)) = some it := by
  refine find?_eq_of_unique hmem (by simp) ?_
  intro a ha hpa
  have haid : a.id = it.id := of_decide_eq_true hpa
  exact List.inj_on_of_nodup_map hnodup ha hmem haid

theorem keptSession_some (db : DB) (sid : Int) (s : Session) (iid : String)
    (hii : s.itemId = some iid)
    (hexcl : (getStatisticsExclusions db sid).1 s = true) :
    keptSession db sid s = itemKeptKey db sid iid := by
  unfold keptSession itemKeptKey
  rw [hii, hexcl, Bool.true_and]

theorem itemKeptKey_of_item (db : DB) (sid : Int)
    (hnodup : (db.items.map (fun it => it.id)).Nodup)
    {it : Item} (hmem : it ∈ db.items)
    (hok : (getStatisticsExclusions db sid).2 it = true) (k : String)
    (hk : it.id = k) :
    itemKeptKey db sid k = true := by
  unfold itemKeptKey
  rw [← hk, find?_items_of_mem db hnodup hmem]
  exact hok

theorem joinedRows_filterExcluded (db : DB) (sid : Int)
    (sessOk : Session → Nat → Bool) (itemOk : Item → Bool)
    (hnodup : (db.items.map (fun it => it.id)).Nodup)
    (hsess : ∀ s t, sessOk s t = true →
      (getStatisticsExclusions db sid).1 s = true)
    (hitem : ∀ it, itemOk it = true →
      (getStatisticsExclusions db sid).2 it = true) :
    joinedRows (filterExcluded db sid) sessOk itemOk =
      joinedRows db sessOk itemOk := by
  have h : joinedRows (filterExcluded db sid) sessOk itemOk =
      (db.sessions.filter (keptSession db sid)).flatMap (fun s =>
        match s.startTime, s.itemId with
        | some t, some iid =>
          if sessOk s t then
            (db.items.filter (fun it => decide (it.id = iid) && itemOk it)).map
              (fun it => { s := s, item := it, t := t, itemKey := iid })
          else []
        | _, _ => []) := rfl
  rw [h]
  refine flatMap_filter_eq _ ?_
  intro s _ hne
  cases hst : s.startTime with
  | none =>
    rw [hst] at hne
    simp at hne
  | some t =>
    cases hii : s.itemId with
    | none =>
      rw [hst, hii] at hne
      simp at hne
    | some iid =>
      rw [hst, hii] at hne
      simp only [] at hne
      by_cases hok : sessOk s t = true
      · rw [if_pos hok] at hne
        have hfil : db.items.filter
            (fun it => decide (it.id = iid) && itemOk it) ≠ [] := by
          intro hcontra
          rw [hcontra] at hne
          simp at hne
        rcases List.exists_mem_of_ne_nil _ hfil with ⟨it0, hit0⟩
        have hit0m := List.mem_filter.mp hit0
        have hcond := hit0m.2
        simp only [Bool.and_eq_true, decide_eq_true_eq] at hcond
        rw [keptSession_some db sid s iid hii (hsess s t hok)]
        exact itemKeptKey_of_item db sid hnodup hit0m.1
          (hitem it0 hcond.2) iid hcond.1
      · rw [if_neg hok] at hne
        simp at hne

theorem wrappedSessOk_excl (db : DB) (p : WrappedParams) (s : Session) (t : Nat)
    (h : wrappedSessOk db p s t = true) :
    (getStatisticsExclusions db p.serverId).1 s = true := by
  unfold wrappedSessOk at h
  simp only [Bool.and_eq_true] at h
  exact h.2

theorem wrappedRows_filterExcluded (db : DB) (p : WrappedParams)
    (hnodup : (db.items.map (fun it => it.id)).Nodup) :
    wrappedRows (filterExcluded db p.serverId) p = wrappedRows db p := by
  have h : wrappedRows (filterExcluded db p.serverId) p =
      joinedRows (filterExcluded db p.serverId) (wrappedSessOk db p)
        (getStatisticsExclusions db p.serverId).2 := rfl
  rw [h, joinedRows_filterExcluded db p.serverId _ _ hnodup
    (fun s t hs => wrappedSessOk_excl db p s t hs) (fun _ hit => hit)]
  rfl

theorem activity_filterExcluded (db : DB) (p : WrappedParams)
    (hnodup : (db.items.map (fun it => it.id)).Nodup) :
    getWrappedActivityPatterns (filterExcluded db p.serverId) p =
      getWrappedActivityPatterns db p := by
  have hrows := wrappedRows_filterExcluded db p hnodup
  simp only [getWrappedActivityPatterns, hrows]

theorem typeBreakdown_filterExcluded (db : DB) (p : WrappedParams)
    (hnodup : (db.items.map (fun it => it.id)).Nodup) :
    getWrappedTypeBreakdown (filterExcluded db p.serverId) p =
      getWrappedTypeBreakdown db p := by
  have hrows := wrappedRows_filterExcluded db p hnodup
  simp only [getWrappedTypeBreakdown, hrows]

theorem rewatch_filterExcluded (db : DB) (p : WrappedParams)
    (hnodup : (db.items.map (fun it => it.id)).Nodup) :
    getWrappedRewatchStats (filterExcluded db p.serverId) p =
      getWrappedRewatchStats db p := by
  have hrows := wrappedRows_filterExcluded db p hnodup
  simp only [getWrappedRewatchStats, hrows]

theorem overview_filterExcluded (db : DB) (p : WrappedParams)
    (hnodup : (db.items.map (fun it => it.id)).Nodup) :
    getWrappedOverview (filterExcluded db p.serverId) p =
      getWrappedOverview db p := by
  have hrows := wrappedRows_filterExcluded db p hnodup
  have hov : overviewWatchOf (filterExcluded db p.serverId) =
      overviewWatchOf db := rfl
  simp only [getWrappedOverview, hrows, hov]

theorem genreStats_filterExcluded (db : DB) (p : WrappedParams)
    (hnodup : (db.items.map (fun it => it.id)).Nodup) :
    getWrappedGenreStats (filterExcluded db p.serverId) p =
      getWrappedGenreStats db p := by
  have hsessok : wrappedSessOk (filterExcluded db p.serverId) p =
      wrappedSessOk db p := rfl
  have hexcl : getStatisticsExclusions (filterExcluded db p.serverId)
      p.serverId = getStatisticsExclusions db p.serverId := rfl
  have hjoin := joinedRows_filterExcluded db p.serverId (wrappedSessOk db p)
    (fun it => (getStatisticsExclusions db p.serverId).2 it && it.genres.isSome)
    hnodup (fun s t hs => wrappedSessOk_excl db p s t hs)
    (fun it hit => by
      simp only [Bool.and_eq_true] at hit
      exact hit.1)
  simp only [getWrappedGenreStats, hsessok, hexcl, hjoin]

theorem topItemsSessionRows_filterExcluded (db : DB) (p : WrappedParams) :
    topItemsSessionRows (filterExcluded db p.serverId) p =
      (topItemsSessionRows db p).filter
        (fun r => itemKeptKey db p.serverId r.itemKey) := by
  have h : topItemsSessionRows (filterExcluded db p.serverId) p =
      (db.sessions.filter (keptSession db p.serverId)).filterMap (fun s =>
        match s.startTime, s.itemId with
        | some t, some iid =>
          if wrappedSessOk db p s t then some { s := s, t := t, itemKey := iid }
          else none
        | _, _ => none) := rfl
  rw [h]
  refine filterMap_comm_filter _ ?_
  intro s _ r hr
  cases hst : s.startTime with
  | none =>
    rw [hst] at hr
    simp at hr
  | some t =>
    cases hii : s.itemId with
    | none =>
      rw [hst, hii] at hr
      simp at hr
    | some iid =>
      rw [hst, hii] at hr
      simp only [] at hr
      by_cases hok : wrappedSessOk db p s t = true
      · rw [if_pos hok] at hr
        have hr2 : ({ s := s, t := t, itemKey := iid } : SRow) = r :=
          Option.some.inj hr
        rw [← hr2]
        exact keptSession_some db p.serverId s iid hii
          (wrappedSessOk_excl db p s t hok)
      · rw [if_neg hok] at hr
        simp at hr

theorem topItemsSessionStats_filter (db : DB) (sid : Int) (srows : List SRow) :
    topItemsSessionStats (srows.filter
        (fun r => itemKeptKey db sid r.itemKey)) =
      (topItemsSessionStats srows).filter
        (fun st => itemKeptKey db sid st.itemId) := by
  unfold topItemsSessionStats
  rw [groupsBy_filter_key (fun r : SRow => r.itemKey) (itemKeptKey db sid)
    srows]
  have h2 : ((groupsBy (fun r : SRow => r.itemKey) srows).filter
        (fun g => itemKeptKey db sid g.1)).map
      (fun g => (g.1, sumBy (fun r => r.s.playDuration.getD 0) g.2,
                 g.2.length)) =
      ((groupsBy (fun r : SRow => r.itemKey) srows).map
        (fun g => (g.1, sumBy (fun r => r.s.playDuration.getD 0) g.2,
                   g.2.length))).filter
        (fun x => itemKeptKey db sid x.1) :=
    map_filter_eq_filter_map _ (fun g _ => rfl)
  rw [h2]
  have hnodupm : (((groupsBy (fun r : SRow => r.itemKey) srows).map
      (fun g => (g.1, sumBy (fun r => r.s.playDuration.getD 0) g.2,
                 g.2.length))).map Prod.fst).Nodup := by
    rw [List.map_map]
    have hc : (Prod.fst ∘ fun g : String × List SRow =>
        ((g.1, sumBy (fun r => r.s.playDuration.getD 0) g.2, g.2.length) :
          String × Int × Nat)) = Prod.fst := rfl
    rw [hc]
    exact groupsBy_keys_nodup _ _
  have h3 := sortBy_filter_comm
    (fun a b => descLex_total (fun g : String × Int × Nat => g.2.1) Prod.fst
      strLe strLe_isLinOrd.total a b)
    (fun a b c hab hbc => descLex_trans (fun g : String × Int × Nat => g.2.1)
      Prod.fst strLe strLe_isLinOrd.trans a b c hab hbc)
    (fun x => itemKeptKey db sid x.1)
    ((groupsBy (fun r : SRow => r.itemKey) srows).map
      (fun g => (g.1, sumBy (fun r => r.s.playDuration.getD 0) g.2,
                 g.2.length)))
    (fun a ha b hb hab hba =>
      List.inj_on_of_nodup_map hnodupm ha hb
        (descLex_antisymm (fun g : String × Int × Nat => g.2.1) Prod.fst strLe
          (fun x y hxy hyx => strLe_isLinOrd.antisymm x y hxy hyx) a b hab
          hba).2)
  rw [h3]
  have h4 : ((sortBy (fun g1 g2 =>
        decide (g2.2.1 < g1.2.1) ||
          (decide (g1.2.1 = g2.2.1) && strLe g1.1 g2.1))
      ((groupsBy (fun r : SRow => r.itemKey) srows).map
        (fun g => (g.1, sumBy (fun r => r.s.playDuration.getD 0) g.2,
                   g.2.length)))).filter
      (fun x => itemKeptKey db sid x.1)).map
      (fun g => ({ itemId := g.1, totalPlayCount := g.2.2,
                   totalPlayDuration := g.2.1 } : SessStat)) =
      ((sortBy (fun g1 g2 =>
        decide (g2.2.1 < g1.2.1) ||
          (decide (g1.2.1 = g2.2.1) && strLe g1.1 g2.1))
      ((groupsBy (fun r : SRow => r.itemKey) srows).map
        (fun g => (g.1, sumBy (fun r => r.s.playDuration.getD 0) g.2,
                   g.2.length)))).map
      (fun g => ({ itemId := g.1, totalPlayCount := g.2.2,
                   totalPlayDuration := g.2.1 } : SessStat))).filter
      (fun st => itemKeptKey db sid st.itemId) :=
    map_filter_eq_filter_map _ (fun g _ => rfl)
  rw [h4, List.filter_comm]

theorem topItemsWithStats_filter (db : DB) (p : WrappedParams)
    (hnodup : (db.items.map (fun it => it.id)).Nodup)
    (stats : List SessStat) :
    topItemsWithStats db p (stats.filter
        (fun st => itemKeptKey db p.serverId st.itemId)) =
      topItemsWithStats db p stats := by
  have hids : (stats.filter
        (fun st => itemKeptKey db p.serverId st.itemId)).map
      (fun st => st.itemId) =
      (stats.map (fun st => st.itemId)).filter (itemKeptKey db p.serverId) :=
    map_filter_eq_filter_map _ (fun st _ => rfl)
  have hdata : db.items.filter (fun it =>
      decide (it.id ∈ (stats.map (fun st => st.itemId)).filter
        (itemKeptKey db p.serverId)) &&
      (getStatisticsExclusions db p.serverId).2 it) =
      db.items.filter (fun it =>
        decide (it.id ∈ stats.map (fun st => st.itemId)) &&
        (getStatisticsExclusions db p.serverId).2 it) := by
    refine List.filter_congr ?_
    intro it hit
    by_cases hok : (getStatisticsExclusions db p.serverId).2 it = true
    · rw [hok, Bool.and_true, Bool.and_true, decide_eq_decide]
      constructor
      · intro hmem
        exact List.mem_of_mem_filter hmem
      · intro hmem
        refine List.mem_filter.mpr ⟨hmem, ?_⟩
        exact itemKeptKey_of_item db p.serverId hnodup hit hok it.id rfl
    · have hok2 : (getStatisticsExclusions db p.serverId).2 it = false :=
        Bool.eq_false_iff.mpr hok
      rw [hok2, Bool.and_false, Bool.and_false]
  simp only [topItemsWithStats]
  rw [hids, hdata]
  refine filterMap_filter_eq _ ?_
  intro st _ hsome
  cases hfind2 : (db.items.filter (fun it =>
      decide (it.id ∈ stats.map (fun st2 => st2.itemId)) &&
      (getStatisticsExclusions db p.serverId).2 it)).reverse.find?
      (fun it => decide (it.id = st.itemId)) with
  | none =>
    rw [hfind2] at hsome
    simp at hsome
  | some it1 =>
    have hmem1 : it1 ∈ db.items.filter (fun it =>
        decide (it.id ∈ stats.map (fun st2 => st2.itemId)) &&
        (getStatisticsExclusions db p.serverId).2 it) :=
      List.mem_reverse.mp (List.mem_of_find?_eq_some hfind2)
    have hp1 := List.find?_some hfind2
    have hid1 : it1.id = st.itemId := of_decide_eq_true hp1
    have hmem2 := List.mem_filter.mp hmem1
    have hcond := hmem2.2
    simp only [Bool.and_eq_true] at hcond
    exact itemKeptKey_of_item db p.serverId hnodup hmem2.1 hcond.2
      st.itemId hid1

theorem topItems_filterExcluded (db : DB) (p : WrappedParams)
    (hnodup : (db.items.map (fun it => it.id)).Nodup) (n : Nat) :
    getWrappedTopItems (filterExcluded db p.serverId) p n =
      getWrappedTopItems db p n := by
  have h0 : getWrappedTopItems (filterExcluded db p.serverId) p n =
      topItemsRest db p (topItemsWithStats db p (topItemsSessionStats
        (topItemsSessionRows (filterExcluded db p.serverId) p))) n := rfl
  rw [h0, topItemsSessionRows_filterExcluded db p,
    topItemsSessionStats_filter db p.serverId,
    topItemsWithStats_filter db p hnodup]
  rfl

theorem peopleStats_filterExcluded (db : DB) (p : WrappedParams)
    (hnodup : (db.items.map (fun it => it.id)).Nodup) (n : Nat) :
    getWrappedPeopleStats (filterExcluded db p.serverId) p n =
      getWrappedPeopleStats db p n := by
  have hsessok : wrappedSessOk (filterExcluded db p.serverId) p =
      wrappedSessOk db p := rfl
  have hexcl : getStatisticsExclusions (filterExcluded db p.serverId)
      p.serverId = getStatisticsExclusions db p.serverId := rfl
  have hpjr : peopleJoinRows (filterExcluded db p.serverId) =
      peopleJoinRows db := rfl
  have hjm := joinedRows_filterExcluded db p.serverId (wrappedSessOk db p)
    (fun it => (getStatisticsExclusions db p.serverId).2 it &&
      decide (it.type = "Movie"))
    hnodup (fun s t hs => wrappedSessOk_excl db p s t hs)
    (fun it hit => by
      simp only [Bool.and_eq_true] at hit
      exact hit.1)
  have hjs := joinedRows_filterExcluded db p.serverId (wrappedSessOk db p)
    (fun it => (getStatisticsExclusions db p.serverId).2 it &&
      decide (it.type = "Episode") && it.seriesId.isSome)
    hnodup (fun s t hs => wrappedSessOk_excl db p s t hs)
    (fun it hit => by
      simp only [Bool.and_eq_true] at hit
      exact hit.1.1)
  simp only [getWrappedPeopleStats, getTopPeopleByType, hsessok, hexcl, hpjr,
    hjm, hjs]

theorem percentileServerSessOk_excl (db : DB) (p : WrappedParams) (s : Session)
    (t : Nat) (h : percentileServerSessOk db p s t = true) :
    (getStatisticsExclusions db p.serverId).1 s = true := by
  unfold percentileServerSessOk at h
  simp only [Bool.and_eq_true] at h
  exact h.2

theorem percentileUserSessOk_excl (db : DB) (p : WrappedParams)
    (hreq : requesterNotExcluded db p = true) (s : Session) (t : Nat)
    (h : percentileUserSessOk p s t = true) :
    (getStatisticsExclusions db p.serverId).1 s = true := by
  unfold percentileUserSessOk at h
  simp only [Bool.and_eq_true, decide_eq_true_eq] at h
  have huid : s.userId = some p.userId := h.1.1.2
  unfold requesterNotExcluded at hreq
  unfold getStatisticsExclusions
  cases hfind : db.servers.find? (fun sv => decide (sv.id = p.serverId)) with
  | none =>
    simp only [hfind]
  | some sv =>
    rw [hfind] at hreq
    simp only [] at hreq
    simp only [hfind, huid]
    exact hreq

theorem percentiles_filterExcluded (db : DB) (p : WrappedParams)
    (hnodup : (db.items.map (fun it => it.id)).Nodup)
    (hreq : requesterNotExcluded db p = true) :
    getWrappedGenrePercentiles (filterExcluded db p.serverId) p =
      getWrappedGenrePercentiles db p := by
  have hexcl : getStatisticsExclusions (filterExcluded db p.serverId)
      p.serverId = getStatisticsExclusions db p.serverId := rfl
  have hservsess : percentileServerSessOk (filterExcluded db p.serverId) p =
      percentileServerSessOk db p := rfl
  have hju := joinedRows_filterExcluded db p.serverId (percentileUserSessOk p)
    (fun it => (getStatisticsExclusions db p.serverId).2 it && it.genres.isSome)
    hnodup (fun s t hs => percentileUserSessOk_excl db p hreq s t hs)
    (fun it hit => by
      simp only [Bool.and_eq_true] at hit
      exact hit.1)
  have hjs2 := joinedRows_filterExcluded db p.serverId
    (percentileServerSessOk db p)
    (fun it => (getStatisticsExclusions db p.serverId).2 it && it.genres.isSome)
    hnodup (fun s t hs => percentileServerSessOk_excl db p s t hs)
    (fun it hit => by
      simp only [Bool.and_eq_true] at hit
      exact hit.1)
  simp only [getWrappedGenrePercentiles, hexcl, hservsess, hju, hjs2]

/-- C3 (amended): with unique item ids, the Wrapped aggregations other
than the genre percentiles are unchanged when every session of an
excluded user and every session of an excluded-library item is removed
from the database, so those sessions never contribute to them; the
genre-percentile aggregation enjoys the same invariance only under the
proviso that the requesting user is not excluded, because its per-user
query omits the user-exclusion condition applied everywhere else (see
the counterexample). -/
theorem claim3_exclusion_invariant (db : DB) (p : WrappedParams)
    (hnodup : (db.items.map (fun it => it.id)).Nodup) :
    getWrappedOverview (filterExcluded db p.serverId) p =
      getWrappedOverview db p ∧
    getWrappedActivityPatterns (filterExcluded db p.serverId) p =
      getWrappedActivityPatterns db p ∧
    getWrappedTypeBreakdown (filterExcluded db p.serverId) p =
      getWrappedTypeBreakdown db p ∧
    getWrappedRewatchStats (filterExcluded db p.serverId) p =
      getWrappedRewatchStats db p ∧
    getWrappedGenreStats (filterExcluded db p.serverId) p =
      getWrappedGenreStats db p ∧
    (∀ n : Nat, getWrappedTopItems (filterExcluded db p.serverId) p n =
      getWrappedTopItems db p n) ∧
    (∀ n : Nat, getWrappedPeopleStats (filterExcluded db p.serverId) p n =
      getWrappedPeopleStats db p n) ∧
    (requesterNotExcluded db p = true →
      getWrappedGenrePercentiles (filterExcluded db p.serverId) p =
        getWrappedGenrePercentiles db p) :=
  ⟨overview_filterExcluded db p hnodup,
   activity_filterExcluded db p hnodup,
   typeBreakdown_filterExcluded db p hnodup,
   rewatch_filterExcluded db p hnodup,
   genreStats_filterExcluded db p hnodup,
   fun n => topItems_filterExcluded db p hnodup n,
   fun n => peopleStats_filterExcluded db p hnodup n,
   fun hreq => percentiles_filterExcluded db p hnodup hreq⟩

/-- Witness: the amended invariance holds at the concrete example
database, whose item ids are distinct. -/
theorem claim3_exclusion_invariant_witness :
    ((exDb.items.map (fun it => it.id)).Nodup) ∧
    getWrappedOverview (filterExcluded exDb exParams.serverId) exParams =
      getWrappedOverview exDb exParams :=
  ⟨by decide, (claim3_exclusion_invariant exDb exParams (by decide)).1⟩

/-- C3 counterexample: in the example database the requesting user "u1"
is on the server's excluded-user list — their session fails the
user-exclusion predicate and the exclusion-respecting joined row set of
the year is empty — yet `getWrappedGenrePercentiles` still returns an
entry reporting their 300 seconds of Drama watch time, because the
per-user half of the percentile query omits the user-exclusion
condition.  So an excluded user does contribute to a returned
statistic, against the claim. -/
theorem claim3_exclusion_counterexample :
    (getStatisticsExclusions exDb exParams.serverId).1 exSession = false ∧
    exSession ∈ exDb.sessions ∧
    wrappedRows exDb exParams = [] ∧
    getWrappedGenrePercentiles exDb exParams =
      [{ genre := ("Drama"), userWatchTimeSeconds := 300,
         serverAverageSeconds := 0, percentile := 0,
         isTopGenreForUser := true }] := by decide

end Streamy
